import Mathlib

/-!
# First-run bootstrap of the Akamai CLI (`cli/app/firstrun.go`)

A shallow embedding of `firstRun`, `firstRunCheckInPath`, `choosePath`,
`firstRunCheckUpgrade` and `moveFile`, followed by the properties established
about them.

Conventions of the embedding:

* Everything the Go code prints, and every call it makes into a collaborator
  package (`pkgio.ShowBanner`, `config.SaveConfig`, `tools.MoveFile`,
  `stats.FirstRunCheckStats`, ...), is recorded as an `Event` appended to the
  `trace` of the `World`; the trace is kept on every path, also when the run
  panics or never returns.
* `fmt.Scanln(&answer)` pops the next element of `World.input`; the element is
  the value the call leaves in `answer`.  When the input is exhausted
  (end of input) `answer` keeps its initial value `""`.
* `choosePath` is recursive without a bound in Go.  The embedding carries a
  fuel counter that bounds the recursion depth; `Outcome.diverge` is returned
  when it runs out.
* A Go run-time panic (slice index out of range) is `Outcome.panic`.
-/

namespace FirstRun

/-! ## Go standard library -/

/-- Go `unicode.IsSpace`: the Latin-1 spaces and the code points with the
Unicode White_Space property. -/
def isSpace (c : Char) : Bool :=
  let n := c.toNat
  n == 0x09 || n == 0x0A || n == 0x0B || n == 0x0C || n == 0x0D || n == 0x20 ||
  n == 0x85 || n == 0xA0 || n == 0x1680 || (0x2000 ≤ n && n ≤ 0x200A) ||
  n == 0x2028 || n == 0x2029 || n == 0x202F || n == 0x205F || n == 0x3000

/-- Go `strings.TrimSpace` on the list of code points. -/
def trimSpaceChars (cs : List Char) : List Char :=
  ((cs.dropWhile isSpace).reverse.dropWhile isSpace).reverse

/-- Go `strings.TrimSpace`. -/
def trimSpace (s : String) : String := String.mk (trimSpaceChars s.data)

/-- Splitting loop shared by the Unix and the Windows `filepath.SplitList`:
`quoting` is true on Windows, where a separator between double quotes does not
split; `quo` is the current quote state and `cur` the reversed current entry. -/
def splitAux (sep : Char) (quoting : Bool) : Bool → List Char → List Char → List (List Char)
  | _, cur, [] => [cur.reverse]
  | quo, cur, c :: cs =>
    if quoting && c == '"' then splitAux sep quoting (!quo) (c :: cur) cs
    else if c == sep && !quo then cur.reverse :: splitAux sep quoting quo [] cs
    else splitAux sep quoting quo (c :: cur) cs

/-- Go `filepath.SplitList`: the empty string gives the empty list; otherwise
the string is split on `:` (Unix) or on unquoted `;` with the quotes removed
afterwards (Windows). -/
def splitList (windows : Bool) (s : String) : List String :=
  if s.data = [] then []
  else if windows then
    (splitAux ';' true false [] s.data).map (fun l => String.mk (l.filter (fun c => c != '"')))
  else
    (splitAux ':' false false [] s.data).map String.mk

/-- Largest value of the 64-bit Go `int`. -/
def maxInt : Int := 2 ^ 63 - 1

/-- Digit loop of Go `strconv.ParseUint` in base 10 on 64 bits: `none` is a
syntax error, `some (n, false)` a range error (with `n` the maximal value) and
`some (n, true)` the parsed number. -/
def parseDigits : Nat → List Char → Option (Nat × Bool)
  | n, [] => some (n, true)
  | n, c :: cs =>
    if '0' ≤ c ∧ c ≤ '9' then
      if n ≥ (2 ^ 64 - 1) / 10 + 1 then some (2 ^ 64 - 1, false)
      else
        let n1 := n * 10 + (c.toNat - '0'.toNat)
        if n1 > 2 ^ 64 - 1 then some (2 ^ 64 - 1, false)
        else parseDigits n1 cs
    else none

/-- Go `strconv.ParseInt(s, 10, 0)` after the sign has been removed. -/
def parseSigned (neg : Bool) (cs : List Char) : Int × Bool :=
  match cs with
  | [] => (0, false)
  | _ :: _ =>
    match parseDigits 0 cs with
    | none => (0, false)
    | some (un, _) =>
      if !neg && un ≥ 2 ^ 63 then (maxInt, false)
      else if neg && un > 2 ^ 63 then (-(2 ^ 63), false)
      else (if neg then -(un : Int) else (un : Int), true)

/-- Go `strconv.Atoi`: the value and whether the error is nil.  A string that
is not an optionally signed sequence of decimal digits gives `(0, false)`; a
number outside the 64-bit range gives the nearest bound and `false`. -/
def atoi (s : String) : Int × Bool :=
  match s.data with
  | [] => (0, false)
  | '+' :: cs => parseSigned false cs
  | '-' :: cs => parseSigned true cs
  | cs => parseSigned false cs

/-- Go `strings.EqualFold(s, "y")`: the simple case-folding orbit of `y` is
`y`, `Y`. -/
def equalFoldY (s : String) : Bool := s == "y" || s == "Y"

/-! ## Environment, world and events -/

/-- What the process reads from its surroundings.  `toLower`, `dir` and `join`
stand for `strings.ToLower`, `filepath.Dir` and `filepath.Join`;
`statNotExist p` is `os.IsNotExist(err)` for the error of `os.Stat(p)` and
`checkAccess p` says that `checkAccess(p, ACCESSWOK)` returned nil. -/
structure Env where
  stdoutIsTerminal : Bool
  stdoutIsCygwinTerminal : Bool
  windows : Bool
  executable : Except String String
  sysPath : String
  toLower : String → String
  dir : String → String
  join : String → String → String
  statNotExist : String → Bool
  checkAccess : String → Bool

/-- Observable actions of the first-run sequence, in the order of the source. -/
inductive Event where
  | showBanner
  | installPrompt
  | upgradePrompt
  | saveConfig
  | setArgs0 (p : String)
  | chooseHeader
  | chooseItem (i : Nat) (p : String)
  | enterNumber
  | invalidChoice
  | startSpinner (newPath : String)
  | moveFile (src dst : String)
  | stopSpinnerFail
  | printError (msg : String)
  | stopSpinnerOk
  | stats (bannerShown : Bool)
  deriving DecidableEq, Repr

/-- Mutable surroundings of one run: the configuration store, the lines still
to be read from standard input, the results the successive `tools.MoveFile`
calls will give (`none` is a nil error) and the events so far. -/
structure World where
  cfg : String → String → String
  input : List String
  moves : List (Option String)
  trace : List Event

/-- A world at process start: nothing has happened yet. -/
def World.start (cfg : String → String → String) (input : List String)
    (moves : List (Option String)) : World :=
  { cfg := cfg, input := input, moves := moves, trace := [] }

/-- Appends one event to the trace. -/
def emit (w : World) (e : Event) : World := { w with trace := w.trace ++ [e] }

/-- Modelled from the spec: `config.GetConfigValue`, whose package is not among
the sources; `get(section, key)` gives the stored string, empty when unset. -/
def getConfigValue (w : World) (section_ key : String) : String := w.cfg section_ key

/-- Modelled from the spec: `config.SetConfigValue`, whose package is not among
the sources; afterwards `get` of the same section and key gives `value` and
every other key is unchanged. -/
def setConfigValue (w : World) (section_ key value : String) : World :=
  { w with cfg := fun s k => if s = section_ ∧ k = key then value else w.cfg s k }

/-- Modelled from the spec: `config.SaveConfig`, the explicit flush of the
store; it is recorded as an event. -/
def saveConfig (w : World) : World := emit w Event.saveConfig

/-- The call `answer := ""; fmt.Scanln(&answer)`. -/
def scanln (w : World) : String × World :=
  match w.input with
  | [] => ("", w)
  | a :: rest => (a, { w with input := rest })

/-- The call `tools.MoveFile(src, dst)`: recorded as an event, its error taken
from `World.moves`. -/
def toolsMoveFile (w : World) (src dst : String) : Option String × World :=
  let w1 := emit w (Event.moveFile src dst)
  match w1.moves with
  | [] => (none, w1)
  | r :: rest => (r, { w1 with moves := rest })

/-- How a Go call ends: it returns, it panics, or it never returns (the fuel
of the embedding ran out). -/
inductive Outcome (α : Type) where
  | ret (a : α)
  | panic (msg : String)
  | diverge
  deriving DecidableEq, Repr

/-! ## The functions of firstrun.go -/

/-- Source `firstRunCheckUpgrade`: when `cli.last-upgrade-check` is unset, show
the banner unless already shown, ask the question, and store `ignore` for an
answer that folds to `y` and `never` otherwise. -/
def firstRunCheckUpgrade (bannerShown : Bool) (w : World) : Bool × World :=
  if getConfigValue w "cli" "last-upgrade-check" = "" then
    let st : Bool × World :=
      if bannerShown = false then (true, emit w Event.showBanner) else (bannerShown, w)
    let w2 := emit st.2 Event.upgradePrompt
    let r := scanln w2
    if r.1 ≠ "" ∧ equalFoldY r.1 = true then
      (st.1, saveConfig (setConfigValue r.2 "cli" "last-upgrade-check" "ignore"))
    else
      (st.1, saveConfig (setConfigValue r.2 "cli" "last-upgrade-check" "never"))
  else
    (bannerShown, w)

/-- The loop `for i, path := range writablePaths` of `choosePath` printing
the numbered candidates; `i` is the zero-based index of the head. -/
def emitItems : Nat → List String → World → World
  | _, [], w => w
  | i, p :: ps, w => emitItems (i + 1) ps (emit w (Event.chooseItem (i + 1) p))

/-- The slice access `writablePaths[i]` for a Go `int` index: `none` is the
run-time panic for an index out of range. -/
def sliceAt (xs : List String) (i : Int) : Option String :=
  if i < 0 then none else xs.get? i.toNat

/-- Tail of `choosePath` from `suffix := ""` on: index the candidates, start
the spinner, relocate, update `os.Args[0]`, report. -/
def install (env : Env) (writablePaths : List String) (index : Int) (selfPath : String)
    (w : World) : Outcome Unit × World :=
  let suffix := if env.windows then ".exe" else ""
  match sliceAt writablePaths (index - 1) with
  | none => (Outcome.panic "index out of range", w)
  | some d =>
    let newPath := env.join d ("akamai" ++ suffix)
    let w1 := emit w (Event.startSpinner newPath)
    let m := toolsMoveFile w1 selfPath newPath
    let w2 := emit m.2 (Event.setArgs0 newPath)
    let w3 :=
      match m.1 with
      | some msg => emit (emit w2 Event.stopSpinnerFail) (Event.printError msg)
      | none => w2
    (Outcome.ret (), emit w3 Event.stopSpinnerOk)

/-- Source `choosePath`.  The incoming `answer` is overwritten before it is
read.  After each of the two recursive calls the caller goes on with its own
`answer` and `index`: there is no `return` behind them. -/
def choosePath (env : Env) : Nat → List String → String → String → World → Outcome Unit × World
  | 0, _, _, _, w => (Outcome.diverge, w)
  | fuel + 1, writablePaths, _, selfPath, w =>
    let w1 := emit w Event.chooseHeader
    let w2 := emitItems 0 writablePaths w1
    let w3 := emit w2 Event.enterNumber
    let r := scanln w3
    let answer := r.1
    let index := (atoi answer).1
    let errNil := (atoi answer).2
    let s1 : Outcome Unit × World :=
      if errNil = false then
        choosePath env fuel writablePaths answer selfPath (emit r.2 Event.invalidChoice)
      else (Outcome.ret (), r.2)
    match s1 with
    | (Outcome.ret _, w4) =>
      let s2 : Outcome Unit × World :=
        if answer = "" ∨ index < 1 ∨ index > (writablePaths.length : Int) then
          choosePath env fuel writablePaths answer selfPath (emit w4 Event.invalidChoice)
        else (Outcome.ret (), w4)
      match s2 with
      | (Outcome.ret _, w5) => install env writablePaths index selfPath w5
      | other => other
    | other => other

/-- Variables of `firstRunCheckInPath` that its loop over the PATH entries
reads and writes. -/
structure Scan where
  inPath : Bool
  bannerShown : Bool
  writablePaths : List String
  w : World

/-- Body of the loop `for _, path := range paths` of `firstRunCheckInPath`. -/
def scanEntry (env : Env) (dirPath : String) (st : Scan) (path : String) : Scan :=
  if trimSpace path = "" then st
  else
    let path := if env.windows then env.toLower path else path
    let writablePaths :=
      if env.statNotExist path = false then
        if env.checkAccess path = true then st.writablePaths ++ [path] else st.writablePaths
      else st.writablePaths
    if path = dirPath then
      let r := firstRunCheckUpgrade false st.w
      { inPath := true, bannerShown := r.1, writablePaths := writablePaths, w := r.2 }
    else
      { st with writablePaths := writablePaths }

/-- State of `firstRunCheckInPath` when its loop starts: the two guards on the
declined sentinel and on an empty list of entries have run. -/
def scanInit (paths : List String) (w : World) : Scan :=
  let s0 : Scan := { inPath := false, bannerShown := false, writablePaths := [], w := w }
  let s1 : Scan :=
    if getConfigValue s0.w "cli" "install-in-path" = "no" then
      let r := firstRunCheckUpgrade (!true) s0.w
      { s0 with inPath := true, bannerShown := r.1, w := r.2 }
    else s0
  if paths.length = 0 then
    let r := firstRunCheckUpgrade (!true) s1.w
    { s1 with inPath := true, bannerShown := r.1, w := r.2 }
  else s1

/-- Source `firstRunCheckInPath`, returning the Go pair of the banner flag and
the error (`none` is nil). -/
def firstRunCheckInPath (env : Env) (fuel : Nat) (w : World) :
    Outcome (Bool × Option String) × World :=
  match env.executable with
  | Except.error e => (Outcome.ret (false, some e), w)
  | Except.ok selfPath =>
    let w0 := emit w (Event.setArgs0 selfPath)
    let dirPath := if env.windows then env.toLower (env.dir selfPath) else env.dir selfPath
    let paths := splitList env.windows env.sysPath
    let st := paths.foldl (scanEntry env dirPath) (scanInit paths w0)
    if st.inPath = false ∧ st.writablePaths.length > 0 then
      let b : Bool × World :=
        if st.bannerShown = false then (true, emit st.w Event.showBanner)
        else (st.bannerShown, st.w)
      let w1 := emit b.2 Event.installPrompt
      let r := scanln w1
      if r.1 ≠ "" ∧ equalFoldY r.1 = true then
        let w2 := saveConfig (setConfigValue r.2 "cli" "install-in-path" "no")
        let u := firstRunCheckUpgrade true w2
        (Outcome.ret (true, none), u.2)
      else
        match choosePath env fuel st.writablePaths r.1 selfPath r.2 with
        | (Outcome.ret _, w3) => (Outcome.ret (b.1, none), w3)
        | (Outcome.panic msg, w3) => (Outcome.panic msg, w3)
        | (Outcome.diverge, w3) => (Outcome.diverge, w3)
    else
      (Outcome.ret (st.bannerShown, none), st.w)

/-- Source `firstRun`, returning the Go error (`none` is nil). -/
def firstRun (env : Env) (fuel : Nat) (w : World) : Outcome (Option String) × World :=
  if env.stdoutIsTerminal = false ∧ env.stdoutIsCygwinTerminal = false then
    (Outcome.ret none, w)
  else
    match firstRunCheckInPath env fuel w with
    | (Outcome.ret (_, some e), w1) => (Outcome.ret (some e), w1)
    | (Outcome.ret (bannerShown, none), w1) =>
      let u := firstRunCheckUpgrade bannerShown w1
      (Outcome.ret none, emit u.2 (Event.stats u.1))
    | (Outcome.panic msg, w1) => (Outcome.panic msg, w1)
    | (Outcome.diverge, w1) => (Outcome.diverge, w1)

/-! ## The file system seen by `moveFile` -/

/-- What `os.Stat` reports about the type of a file. -/
inductive FileKind where
  | regular
  | directory
  | other
  deriving DecidableEq, Repr

/-- A file: its type, its bytes and its permission bits. -/
structure File where
  kind : FileKind
  content : List Nat
  mode : Nat
  deriving DecidableEq, Repr

/-- A file system with names and files kept apart, so that several paths may
name one file (another spelling of the path, a hard link, a symbolic link, a
case variant on a case-insensitive volume).

* `resolve p` is the file (its number) the path `p` leads to, symbolic links
  followed, as `os.Stat`, `os.Open`, `os.Create` and `os.Chmod` see it;
  `none` when the path leads to no file.
* `inodes i` is the file with number `i`.
* `next` is the number the next new file gets; `bound` says that no path
  leads to a number not yet given out.
* `unlinks p q` says that removing the directory entry `p` names also leaves
  `q` without a file (`q` is another spelling of that entry, or a symbolic
  link to it); `live` says that this concerns only paths that lead to a file.
-/
structure FS where
  resolve : String → Option Nat
  inodes : Nat → File
  next : Nat
  unlinks : String → String → Bool
  bound : ∀ p i, resolve p = some i → i < next
  live : ∀ p q, unlinks p q = true → resolve q ≠ none

/-- What `os.Stat(p)` finds: the file the path leads to, if any. -/
def FS.stat (fs : FS) (p : String) : Option File :=
  match fs.resolve p with
  | none => none
  | some i => some (fs.inodes i)

/-- Replaces the file with number `i`; every path that leads to it sees the
change. -/
def FS.setInode (fs : FS) (i : Nat) (f : File) : FS :=
  { fs with inodes := fun k => if k = i then f else fs.inodes k }

/-- Failures the operating system may inject into the calls of `moveFile` for
reasons outside the model (permissions, quota, I/O errors): the message of the
error, and for the copy also the number of bytes written before it. -/
structure Faults where
  stat : Option String
  openSrc : Option String
  create : Option String
  copy : Option (Nat × String)
  chmod : Option String
  remove : Option String
  createMode : Nat

/-- No injected failure; new files get mode 0644. -/
def Faults.none : Faults :=
  { stat := Option.none, openSrc := Option.none, create := Option.none, copy := Option.none,
    chmod := Option.none, remove := Option.none, createMode := 0o644 }

/-- The operating-system calls of `moveFile`. -/
inductive Op where
  | stat
  | openSrc
  | create
  | copy
  | chmod
  | remove
  deriving DecidableEq, Repr

/-- The error `moveFile` returns, tagged with the step that raised it. -/
inductive MoveError where
  | stat (msg : String)
  | notRegular (msg : String)
  | openSrc (msg : String)
  | create (msg : String)
  | copy (msg : String)
  | chmod (msg : String)
  | remove (msg : String)
  deriving DecidableEq, Repr

/-- Result of `moveFile`: the error (`none` is nil), the file system it leaves
and the calls it attempted, in order. -/
structure MoveResult where
  err : Option MoveError
  fs : FS
  ops : List Op

/-- Effect of a successful `os.Create(dst)` (open with create and truncate),
with the number of the file the returned handle is open on.  When `dst` leads
to a file, that file, whatever other paths lead to it, keeps its type and mode
and loses its content; otherwise a new empty regular file with the creation
mode appears under the name `dst`. -/
def createFile (ft : Faults) (fs : FS) (dst : String) : FS × Nat :=
  match fs.resolve dst with
  | some j => (fs.setInode j { fs.inodes j with content := [] }, j)
  | Option.none =>
    ({ resolve := fun q => if q = dst then some fs.next else fs.resolve q,
       inodes := fun k =>
         if k = fs.next then { kind := FileKind.regular, content := [], mode := ft.createMode }
         else fs.inodes k,
       next := fs.next + 1,
       unlinks := fs.unlinks,
       bound := fun q i h => by
         dsimp only at h
         by_cases hq : q = dst
         · rw [if_pos hq] at h
           cases h
           exact Nat.lt_succ_self _
         · rw [if_neg hq] at h
           exact Nat.lt_succ_of_lt (fs.bound q i h),
       live := fun p q h => by
         dsimp only
         by_cases hq : q = dst
         · rw [if_pos hq]
           exact Option.noConfusion
         · rw [if_neg hq]
           exact fs.live p q h },
     fs.next)

/-- Writes bytes through a handle open on the file with number `j`. -/
def writeFile (fs : FS) (j : Nat) (bytes : List Nat) : FS :=
  fs.setInode j { fs.inodes j with content := bytes }

/-- Effect of a successful `os.Chmod` on the file with number `j`. -/
def chmodFile (fs : FS) (j : Nat) (mode : Nat) : FS :=
  fs.setInode j { fs.inodes j with mode := mode }

/-- Bytes `io.Copy` reads through a handle open on the file with number `i`. -/
def readFile (fs : FS) (i : Nat) : List Nat := (fs.inodes i).content

/-- Effect of a successful `os.Remove(src)`: the directory entry `src` names
is removed.  Afterwards `src`, and every path that reached its file through
that entry, leads to no file; the file itself and its other names stay. -/
def removeFile (fs : FS) (src : String) : FS :=
  { resolve := fun q => if q = src ∨ fs.unlinks src q = true then Option.none else fs.resolve q,
    inodes := fs.inodes,
    next := fs.next,
    unlinks := fun p q =>
      fs.unlinks p q && !(decide (q = src) || fs.unlinks src q),
    bound := fun q i h => by
      dsimp only at h
      by_cases hq : q = src ∨ fs.unlinks src q = true
      · rw [if_pos hq] at h
        cases h
      · rw [if_neg hq] at h
        exact fs.bound q i h,
    live := fun p q h => by
      simp only [Bool.and_eq_true, Bool.not_eq_true', Bool.or_eq_false_iff,
        decide_eq_false_iff_not] at h
      dsimp only
      rw [if_neg (fun hq => hq.elim h.2.1 (fun hu => by rw [h.2.2] at hu; cases hu))]
      exact fs.live p q h.1 }

/-- Source `moveFile`: stat, regular-file check, open, create, copy, chmod 0755,
remove; the first failing step returns its error.  The source handle is open
on the file `src` led to at `os.Open`; the copy reads it after `os.Create` has
run, and writes through the handle `os.Create` returned, on which `dst` still
leads at `os.Chmod`. -/
def moveFile (ft : Faults) (fs : FS) (src dst : String) : MoveResult :=
  match ft.stat, fs.resolve src with
  | some e, _ => { err := some (MoveError.stat e), fs := fs, ops := [Op.stat] }
  | Option.none, Option.none =>
    { err := some (MoveError.stat ("stat " ++ src ++ ": no such file or directory")), fs := fs,
      ops := [Op.stat] }
  | Option.none, some i =>
    if (fs.inodes i).kind ≠ FileKind.regular then
      { err := some (MoveError.notRegular (src ++ " is not a regular file")), fs := fs,
        ops := [Op.stat] }
    else
      match ft.openSrc with
      | some e => { err := some (MoveError.openSrc e), fs := fs, ops := [Op.stat, Op.openSrc] }
      | Option.none =>
        match ft.create, fs.stat dst with
        | some e, _ =>
          { err := some (MoveError.create e), fs := fs, ops := [Op.stat, Op.openSrc, Op.create] }
        | Option.none, some ⟨FileKind.directory, _, _⟩ =>
          { err := some (MoveError.create ("open " ++ dst ++ ": is a directory")), fs := fs,
            ops := [Op.stat, Op.openSrc, Op.create] }
        | Option.none, _ =>
          let c := createFile ft fs dst
          let bytes := readFile c.1 i
          match ft.copy with
          | some (n, e) =>
            { err := some (MoveError.copy e), fs := writeFile c.1 c.2 (bytes.take n),
              ops := [Op.stat, Op.openSrc, Op.create, Op.copy] }
          | Option.none =>
            let fs2 := writeFile c.1 c.2 bytes
            match ft.chmod with
            | some e =>
              { err := some (MoveError.chmod e), fs := fs2,
                ops := [Op.stat, Op.openSrc, Op.create, Op.copy, Op.chmod] }
            | Option.none =>
              let fs3 := chmodFile fs2 c.2 0o755
              match ft.remove with
              | some e =>
                { err := some (MoveError.remove e), fs := fs3,
                  ops := [Op.stat, Op.openSrc, Op.create, Op.copy, Op.chmod, Op.remove] }
              | Option.none =>
                { err := Option.none, fs := removeFile fs3 src,
                  ops := [Op.stat, Op.openSrc, Op.create, Op.copy, Op.chmod, Op.remove] }

/-! ## Sample surroundings -/

/-- Parent directory of a slash-separated path: the text before its last
slash.  It agrees with `filepath.Dir` on cleaned absolute Unix paths below the
root, the only ones it is applied to here. -/
def dirOf (s : String) : String :=
  String.mk ((s.data.reverse.dropWhile (fun c => c != '/')).drop 1).reverse

/-- Joins a directory and a file name with a slash.  It agrees with
`filepath.Join` when the directory is a cleaned Unix path other than the root
and the name has no separator, the only case it is applied to here. -/
def joinOf (d f : String) : String := d ++ "/" ++ f

/-- A Unix terminal session in which the executable is `/opt/akamai/akamai`
and every directory below `/usr` exists and is writable. -/
def unixEnv (sysPath : String) : Env :=
  { stdoutIsTerminal := true, stdoutIsCygwinTerminal := false, windows := false,
    executable := Except.ok "/opt/akamai/akamai", sysPath := sysPath,
    toLower := fun s => s, dir := dirOf, join := joinOf,
    statNotExist := fun p => !(p.data.take 4 == "/usr".data),
    checkAccess := fun p => p.data.take 4 == "/usr".data }

/-- A configuration store in which the given keys of section `cli` are set. -/
def cliConfig (kvs : List (String × String)) : String → String → String :=
  fun s k => if s = "cli" then (kvs.lookup k).getD "" else ""

/-! ## Observations on traces -/

/-- The relocations a trace requests: source and destination of each
`tools.MoveFile` call, in order. -/
def relocations (t : List Event) : List (String × String) :=
  t.filterMap (fun e => match e with
    | Event.moveFile src dst => some (src, dst)
    | _ => none)

/-- The candidate directories a trace lists in path-chooser menus. -/
def listedCandidates (t : List Event) : List String :=
  t.filterMap (fun e => match e with
    | Event.chooseItem _ p => some p
    | _ => none)

/-- Events of the numbered menu of `choosePath`; `i` is the zero-based index
of the head. -/
def itemEvents : Nat → List String → List Event
  | _, [] => []
  | i, p :: ps => Event.chooseItem (i + 1) p :: itemEvents (i + 1) ps

/-- A PATH entry as the loop of `firstRunCheckInPath` uses it: lower-cased on
Windows, verbatim elsewhere. -/
def normEntry (env : Env) (p : String) : String :=
  if env.windows then env.toLower p else p

/-- The directory of the executable as `firstRunCheckInPath` compares it. -/
def exeDir (env : Env) (selfPath : String) : String :=
  if env.windows then env.toLower (env.dir selfPath) else env.dir selfPath

/-- The write-access probe of the loop: `os.Stat` does not report the path
missing and `checkAccess(path, ACCESSWOK)` returns nil. -/
def probeWritable (env : Env) (p : String) : Prop :=
  env.statNotExist p = false ∧ env.checkAccess p = true

instance (env : Env) (p : String) : Decidable (probeWritable env p) := by
  unfold probeWritable; infer_instance

/-- The trace `t2` extends the trace of `w` by events that all satisfy `P`. -/
def TraceExt (P : Event → Prop) (w w2 : World) : Prop :=
  ∃ evs, w2.trace = w.trace ++ evs ∧ ∀ e ∈ evs, P e

/-- Events `firstRunCheckUpgrade` may add. -/
def upgradeEvent (e : Event) : Prop :=
  e = Event.showBanner ∨ e = Event.upgradePrompt ∨ e = Event.saveConfig

/-- Events `choosePath` may add when called on the candidates `wp`. -/
def chooserEvent (wp : List String) : Event → Prop
  | Event.chooseHeader => True
  | Event.chooseItem _ p => p ∈ wp
  | Event.enterNumber => True
  | Event.invalidChoice => True
  | Event.startSpinner _ => True
  | Event.moveFile _ _ => True
  | Event.setArgs0 _ => True
  | Event.stopSpinnerFail => True
  | Event.printError _ => True
  | Event.stopSpinnerOk => True
  | _ => False

/-- The banner has been rendered at most once, and if it has, the upgrade
opt-in is already recorded. -/
def BannerInv (w : World) : Prop :=
  w.trace.count Event.showBanner ≤ 1 ∧
    (w.trace.count Event.showBanner = 1 → getConfigValue w "cli" "last-upgrade-check" ≠ "")

/-- Some non-blank PATH entry, as the loop uses it, equals the directory of
the executable. -/
def onPath (env : Env) (selfPath : String) : Prop :=
  ∃ p ∈ splitList env.windows env.sysPath,
    trimSpace p ≠ "" ∧ normEntry env p = exeDir env selfPath

instance (env : Env) (selfPath : String) : Decidable (onPath env selfPath) := by
  unfold onPath; infer_instance

/-- Some non-blank PATH entry, as the loop uses it, passes the write-access
probe. -/
def hasWritable (env : Env) : Prop :=
  ∃ p ∈ splitList env.windows env.sysPath,
    trimSpace p ≠ "" ∧ probeWritable env (normEntry env p)

instance (env : Env) : Decidable (hasWritable env) := by
  unfold hasWritable; infer_instance

/-- The three conditions under which the installation prompt is due: the
declined sentinel is not `no`, the executable is not on the PATH, and some
entry is writable. -/
def promptDue (env : Env) (selfPath : String) (w : World) : Prop :=
  getConfigValue w "cli" "install-in-path" ≠ "no" ∧ ¬ onPath env selfPath ∧ hasWritable env

/-- The answer to a yes/no question that the code takes its `if` branch on:
non-empty and equal to `y` up to case. -/
def saysY (answer : String) : Prop := answer ≠ "" ∧ equalFoldY answer = true

instance (answer : String) : Decidable (saysY answer) := by
  unfold saysY; infer_instance

/-- The state in which `firstRunCheckInPath` leaves its loop. -/
def scanResult (env : Env) (selfPath : String) (w : World) : Scan :=
  (splitList env.windows env.sysPath).foldl (scanEntry env (exeDir env selfPath))
    (scanInit (splitList env.windows env.sysPath) (emit w (Event.setArgs0 selfPath)))

/-- Events one call of `firstRunCheckUpgrade` adds to the trace. -/
def upgradeEvents (bannerShown : Bool) (w : World) : List Event :=
  if getConfigValue w "cli" "last-upgrade-check" = "" then
    (if bannerShown = false then [Event.showBanner] else []) ++
      [Event.upgradePrompt, Event.saveConfig]
  else []

/-- Whether a path is one of the two spellings `/opt/akamai/akamai` and
`/opt/akamai/./akamai` of the executable. -/
def isExePath (p : String) : Bool :=
  p == "/opt/akamai/akamai" || p == "/opt/akamai/./akamai"

/-- A file system holding only the executable, with the bytes 1, 2, 3 and mode
0755, reachable under both spellings of its path; the two spellings name one
directory entry. -/
def sampleFS : FS :=
  { resolve := fun p => if isExePath p = true then some 0 else none,
    inodes := fun _ => { kind := FileKind.regular, content := [1, 2, 3], mode := 0o755 },
    next := 1,
    unlinks := fun p q => isExePath p && isExePath q,
    bound := fun p i h => by
      dsimp only at h
      by_cases hp : isExePath p = true
      · rw [if_pos hp] at h
        cases h
        exact Nat.one_pos
      · rw [if_neg hp] at h
        exact Option.noConfusion h,
    live := fun p q h => by
      simp only [Bool.and_eq_true] at h
      dsimp only
      rw [if_pos h.2]
      exact Option.noConfusion }

/-! ## Elementary facts about the world -/

@[simp] theorem emit_trace (w : World) (e : Event) : (emit w e).trace = w.trace ++ [e] := rfl
@[simp] theorem emit_cfg (w : World) (e : Event) : (emit w e).cfg = w.cfg := rfl
@[simp] theorem emit_input (w : World) (e : Event) : (emit w e).input = w.input := rfl
@[simp] theorem emit_moves (w : World) (e : Event) : (emit w e).moves = w.moves := rfl

@[simp] theorem scanln_trace (w : World) : (scanln w).2.trace = w.trace := by
  unfold scanln; cases w.input <;> rfl

@[simp] theorem scanln_cfg (w : World) : (scanln w).2.cfg = w.cfg := by
  unfold scanln; cases w.input <;> rfl

@[simp] theorem scanln_emit_fst (w : World) (e : Event) : (scanln (emit w e)).1 = (scanln w).1 := by
  unfold scanln; simp only [emit_input]; cases w.input <;> rfl

@[simp] theorem setConfigValue_trace (w : World) (s k v : String) :
    (setConfigValue w s k v).trace = w.trace := rfl

@[simp] theorem setConfigValue_cfg (w : World) (s k v s2 k2 : String) :
    (setConfigValue w s k v).cfg s2 k2 = if s2 = s ∧ k2 = k then v else w.cfg s2 k2 := rfl

@[simp] theorem saveConfig_trace (w : World) : (saveConfig w).trace = w.trace ++ [Event.saveConfig] :=
  rfl

@[simp] theorem saveConfig_cfg (w : World) : (saveConfig w).cfg = w.cfg := rfl

theorem firstRunCheckUpgrade_of_set (b : Bool) (w : World)
    (h : getConfigValue w "cli" "last-upgrade-check" ≠ "") : firstRunCheckUpgrade b w = (b, w) := by
  unfold firstRunCheckUpgrade; rw [if_neg h]

theorem firstRunCheckUpgrade_trace (b : Bool) (w : World) :
    (firstRunCheckUpgrade b w).2.trace = w.trace ++ upgradeEvents b w := by
  unfold firstRunCheckUpgrade upgradeEvents
  by_cases h : getConfigValue w "cli" "last-upgrade-check" = ""
  · rw [if_pos h, if_pos h]
    cases b <;> simp <;> split <;> simp
  · rw [if_neg h, if_neg h]; simp

theorem firstRunCheckUpgrade_set (b : Bool) (w : World) :
    getConfigValue (firstRunCheckUpgrade b w).2 "cli" "last-upgrade-check" ≠ "" := by
  unfold firstRunCheckUpgrade
  by_cases h : getConfigValue w "cli" "last-upgrade-check" = ""
  · rw [if_pos h]
    by_cases hc : (scanln w).1 ≠ "" ∧ equalFoldY (scanln w).1 = true <;> cases b <;>
      simp [hc, getConfigValue]
  · rw [if_neg h]; exact h

theorem firstRunCheckUpgrade_cfg_other (b : Bool) (w : World) (s k : String)
    (hk : ¬ (s = "cli" ∧ k = "last-upgrade-check")) :
    (firstRunCheckUpgrade b w).2.cfg s k = w.cfg s k := by
  unfold firstRunCheckUpgrade
  by_cases h : getConfigValue w "cli" "last-upgrade-check" = ""
  · rw [if_pos h]
    by_cases hc : (scanln w).1 ≠ "" ∧ equalFoldY (scanln w).1 = true <;> cases b <;>
      simp [hc] <;> exact fun hs hk2 => absurd ⟨hs, hk2⟩ hk
  · rw [if_neg h]

/-! ## The upgrade opt-in -/

/-- Claim C6: `firstRunCheckUpgrade` is idempotent on the persisted state.
For every world (store, pending answers, trace) and every pair of flag values,
the first of two calls in sequence adds at most one upgrade prompt and the
second call adds none: it returns its flag and the world unchanged.  And
whenever `cli.last-upgrade-check` is already non-empty a call is a no-op: it
returns its flag and leaves the world (store, trace, input) as it was. -/
theorem firstRunCheckUpgrade_idempotent (w : World) (b1 b2 : Bool) :
    ((firstRunCheckUpgrade b1 w).2.trace.count Event.upgradePrompt
        ≤ w.trace.count Event.upgradePrompt + 1 ∧
      firstRunCheckUpgrade b2 (firstRunCheckUpgrade b1 w).2 = (b2, (firstRunCheckUpgrade b1 w).2) ∧
      (firstRunCheckUpgrade b2 (firstRunCheckUpgrade b1 w).2).2.trace.count Event.upgradePrompt
        = (firstRunCheckUpgrade b1 w).2.trace.count Event.upgradePrompt) ∧
    (getConfigValue w "cli" "last-upgrade-check" ≠ "" →
      firstRunCheckUpgrade b1 w = (b1, w) ∧
      (firstRunCheckUpgrade b1 w).2.trace = w.trace ∧
      (firstRunCheckUpgrade b1 w).2.cfg = w.cfg) := by
  have h2 := firstRunCheckUpgrade_of_set b2 _ (firstRunCheckUpgrade_set b1 w)
  refine ⟨⟨?_, h2, by rw [h2]⟩, fun h => ?_⟩
  · rw [firstRunCheckUpgrade_trace, List.count_append]
    unfold upgradeEvents
    split_ifs <;> simp [List.count_cons]
  · rw [firstRunCheckUpgrade_of_set b1 w h]
    exact ⟨rfl, rfl, rfl⟩

/-- Instance of C6 on a store in which the opt-in was already declined. -/
theorem firstRunCheckUpgrade_idempotent_witness :
    getConfigValue (World.start (cliConfig [("last-upgrade-check", "never")]) ["y"] [])
        "cli" "last-upgrade-check" ≠ "" ∧
      (firstRunCheckUpgrade false
          (World.start (cliConfig [("last-upgrade-check", "never")]) ["y"] [])).2.trace = [] :=
  ⟨by decide,
    ((firstRunCheckUpgrade_idempotent
      (World.start (cliConfig [("last-upgrade-check", "never")]) ["y"] []) false true).2
      (by decide)).2.1⟩

/-! ## The relocation -/

theorem FS.stat_eq_some (fs : FS) (p : String) (f : File) :
    fs.stat p = some f ↔ ∃ i, fs.resolve p = some i ∧ fs.inodes i = f := by
  unfold FS.stat
  cases fs.resolve p <;> simp

theorem FS.stat_eq_none (fs : FS) (p : String) : fs.stat p = none ↔ fs.resolve p = none := by
  unfold FS.stat
  cases fs.resolve p <;> simp

/-- After `os.Create(dst)`: `dst` leads to the file of the handle, which is
the file it led to before or a new one; no other path and no other file has
changed. -/
theorem createFile_spec (ft : Faults) (fs : FS) (dst : String) :
    (fs.resolve dst = some (createFile ft fs dst).2 ∨
      (fs.resolve dst = none ∧ (createFile ft fs dst).2 = fs.next)) ∧
    (createFile ft fs dst).1.resolve dst = some (createFile ft fs dst).2 ∧
    (∀ q, q ≠ dst → (createFile ft fs dst).1.resolve q = fs.resolve q) ∧
    (∀ k, k ≠ (createFile ft fs dst).2 → (createFile ft fs dst).1.inodes k = fs.inodes k) ∧
    (createFile ft fs dst).1.unlinks = fs.unlinks := by
  unfold createFile
  cases h : fs.resolve dst with
  | none =>
    refine ⟨Or.inr ⟨rfl, rfl⟩, by simp, fun q hq => by simp [hq], fun k hk => ?_, rfl⟩
    simp only [] at hk ⊢
    rw [if_neg hk]
  | some j =>
    refine ⟨Or.inl rfl, h, fun q _ => rfl, fun k hk => ?_, rfl⟩
    simp only [FS.setInode] at hk ⊢
    rw [if_neg hk]

/-- Claim C7: for every file system in which `src` leads to a regular file
with content `X` and `dst` leads to no file and differs from `src`, when stat,
open, create, copy and chmod succeed: if the removal succeeds too, `moveFile`
returns no error, `dst` leads to a regular file with content `X` and mode 0755
and `src` leads to no file; if the removal fails, `moveFile` returns that
error, `dst` leads to a regular file with content `X` and mode 0755 and `src`
still leads to the original file. -/
theorem moveFile_relocates (ft : Faults) (fs : FS) (src dst : String) (X : List Nat) (m : Nat)
    (hsrc : fs.stat src = some { kind := FileKind.regular, content := X, mode := m })
    (hdst : fs.stat dst = none) (hne : dst ≠ src)
    (hstat : ft.stat = none) (hopen : ft.openSrc = none) (hcreate : ft.create = none)
    (hcopy : ft.copy = none) (hchmod : ft.chmod = none) :
    (ft.remove = none →
      (moveFile ft fs src dst).err = none ∧
      (moveFile ft fs src dst).fs.stat dst
        = some { kind := FileKind.regular, content := X, mode := 0o755 } ∧
      (moveFile ft fs src dst).fs.stat src = none) ∧
    (∀ e, ft.remove = some e →
      (moveFile ft fs src dst).err = some (MoveError.remove e) ∧
      (moveFile ft fs src dst).fs.stat dst
        = some { kind := FileKind.regular, content := X, mode := 0o755 } ∧
      (moveFile ft fs src dst).fs.stat src
        = some { kind := FileKind.regular, content := X, mode := m }) := by
  have hsd : src ≠ dst := fun h => hne h.symm
  obtain ⟨i, hri, hfi⟩ := (FS.stat_eq_some fs src _).mp hsrc
  have hrd : fs.resolve dst = none := (FS.stat_eq_none fs dst).mp hdst
  have hin : i ≠ fs.next := Nat.ne_of_lt (fs.bound src i hri)
  have hni : fs.next ≠ i := fun h => hin h.symm
  have hun : fs.unlinks src dst = false := by
    cases hu : fs.unlinks src dst with
    | false => rfl
    | true => exact absurd hrd (fs.live src dst hu)
  have hk : (fs.inodes i).kind = FileKind.regular := by rw [hfi]
  have hc : (fs.inodes i).content = X := by rw [hfi]
  constructor
  · intro hrm
    simp [moveFile, hri, hrd, hdst, hstat, hopen, hcreate, hcopy, hchmod, hrm, hk, hc, createFile,
      readFile, writeFile, chmodFile, removeFile, FS.setInode, FS.stat, hne, hsd, hin, hni, hun]
  · intro e hrm
    simp [moveFile, hri, hrd, hdst, hstat, hopen, hcreate, hcopy, hchmod, hrm, hk, hc, createFile,
      readFile, writeFile, chmodFile, FS.setInode, FS.stat, hne, hsd, hin, hni, hfi]

/-- Instance of C7: a move of `/opt/akamai/akamai` to the fresh path
`/usr/local/bin/akamai` in which nothing fails. -/
theorem moveFile_relocates_witness :
    (sampleFS.stat "/opt/akamai/akamai"
        = some { kind := FileKind.regular, content := [1, 2, 3], mode := 0o755 } ∧
      sampleFS.stat "/usr/local/bin/akamai" = none) ∧
    ((moveFile Faults.none sampleFS "/opt/akamai/akamai" "/usr/local/bin/akamai").err = none ∧
      (moveFile Faults.none sampleFS "/opt/akamai/akamai" "/usr/local/bin/akamai").fs.stat
          "/usr/local/bin/akamai"
        = some { kind := FileKind.regular, content := [1, 2, 3], mode := 0o755 } ∧
      (moveFile Faults.none sampleFS "/opt/akamai/akamai" "/usr/local/bin/akamai").fs.stat
          "/opt/akamai/akamai" = none) :=
  ⟨⟨by decide, by decide⟩,
    (moveFile_relocates Faults.none sampleFS "/opt/akamai/akamai" "/usr/local/bin/akamai"
      [1, 2, 3] 0o755 (by decide) (by decide) (by decide) rfl rfl rfl rfl rfl).1 rfl⟩

/-- Counterexample to C8 as stated for every pair of paths: when the
destination leads to the source file, `os.Create` truncates that file before
the copy; with a failing chmod `moveFile` returns the chmod error and the
source has lost its content.  This happens when the destination is the source
path itself, and also when it is a different path to the same file, here the
spelling `/opt/akamai/./akamai`. -/
theorem moveFile_same_file_truncates :
    sampleFS.stat "/opt/akamai/akamai"
      = some { kind := FileKind.regular, content := [1, 2, 3], mode := 0o755 } ∧
    ((moveFile { Faults.none with chmod := some "operation not permitted" } sampleFS
        "/opt/akamai/akamai" "/opt/akamai/akamai").err
      = some (MoveError.chmod "operation not permitted") ∧
    (moveFile { Faults.none with chmod := some "operation not permitted" } sampleFS
        "/opt/akamai/akamai" "/opt/akamai/akamai").fs.stat "/opt/akamai/akamai"
      = some { kind := FileKind.regular, content := [], mode := 0o755 }) ∧
    ("/opt/akamai/./akamai" ≠ "/opt/akamai/akamai" ∧
    (moveFile { Faults.none with chmod := some "operation not permitted" } sampleFS
        "/opt/akamai/akamai" "/opt/akamai/./akamai").err
      = some (MoveError.chmod "operation not permitted") ∧
    (moveFile { Faults.none with chmod := some "operation not permitted" } sampleFS
        "/opt/akamai/akamai" "/opt/akamai/./akamai").fs.stat "/opt/akamai/akamai"
      = some { kind := FileKind.regular, content := [], mode := 0o755 }) := by
  decide

/-- The ways `moveFile` ends: before `os.Create` with the file system as it
was; after it with only the destination file written; with the error of the
removal; or without error. -/
theorem moveFile_cases (ft : Faults) (fs : FS) (src dst : String) :
    ((moveFile ft fs src dst).fs = fs ∧ Op.remove ∉ (moveFile ft fs src dst).ops) ∨
    (∃ i n, fs.resolve src = some i ∧
      (moveFile ft fs src dst).fs
        = writeFile (createFile ft fs dst).1 (createFile ft fs dst).2 n ∧
      Op.remove ∉ (moveFile ft fs src dst).ops) ∨
    (∃ msg, (moveFile ft fs src dst).err = some (MoveError.remove msg)) ∨
    (moveFile ft fs src dst).err = none := by
  rcases ft with ⟨st, op, cr, cp, ch, rm, cm⟩
  cases hf : fs.resolve src with
  | none => cases st <;> simp [moveFile, hf]
  | some i =>
    have hd : fs.stat dst = none ∨ (∃ gc gm, fs.stat dst = some ⟨FileKind.regular, gc, gm⟩) ∨
        (∃ gc gm, fs.stat dst = some ⟨FileKind.directory, gc, gm⟩) ∨
        (∃ gc gm, fs.stat dst = some ⟨FileKind.other, gc, gm⟩) := by
      cases fs.stat dst with
      | none => exact Or.inl rfl
      | some g => rcases g with ⟨_ | _ | _, gc, gm⟩ <;> simp
    by_cases hk : (fs.inodes i).kind = FileKind.regular
    · rcases hd with hd | ⟨gc, gm, hd⟩ | ⟨gc, gm, hd⟩ | ⟨gc, gm, hd⟩ <;>
        cases st <;> cases op <;> cases cr <;> cases cp <;> cases ch <;> cases rm <;>
        simp [moveFile, hf, hk, hd]
    · cases st <;> simp [moveFile, hf, hk]

/-- Claim C8, amended: for every source path and every destination path that
does not lead to the file the source path leads to (it is not the source path
itself, nor another spelling of it, nor a link to the source file), if
`moveFile` returns an error raised by the stat or regular-file check, by
opening the source, by creating the destination, by the byte copy or by
setting the permissions (any error but the one of the final removal), then
the source is intact: `src` leads to the same file with the same type, content
and mode as before, and the removal of `src` has not been attempted. -/
theorem moveFile_error_keeps_source (ft : Faults) (fs : FS) (src dst : String) (e : MoveError)
    (hdiff : ∀ i, fs.resolve src = some i → fs.resolve dst ≠ some i)
    (herr : (moveFile ft fs src dst).err = some e)
    (hstep : ∀ msg, e ≠ MoveError.remove msg) :
    (moveFile ft fs src dst).fs.stat src = fs.stat src ∧
    (moveFile ft fs src dst).fs.resolve src = fs.resolve src ∧
    Op.remove ∉ (moveFile ft fs src dst).ops := by
  rcases moveFile_cases ft fs src dst with ⟨h1, h2⟩ | ⟨i, n, hi, h1, h2⟩ | ⟨msg, h⟩ | h
  · rw [h1]; exact ⟨rfl, rfl, h2⟩
  · obtain ⟨c1, c2, c3, c4, _⟩ := createFile_spec ft fs dst
    have hsd : src ≠ dst := fun h => hdiff i hi (by rw [← h]; exact hi)
    have hij : i ≠ (createFile ft fs dst).2 := by
      rcases c1 with h | ⟨_, h⟩
      · intro hij
        exact hdiff i hi (by rw [hij]; exact h)
      · rw [h]
        exact Nat.ne_of_lt (fs.bound src i hi)
    have hres : (writeFile (createFile ft fs dst).1 (createFile ft fs dst).2 n).resolve src
        = fs.resolve src := c3 src hsd
    have hino : (writeFile (createFile ft fs dst).1 (createFile ft fs dst).2 n).inodes i
        = fs.inodes i := by
      unfold writeFile FS.setInode
      simp only []
      rw [if_neg hij]
      exact c4 i hij
    rw [h1]
    refine ⟨?_, hres, h2⟩
    unfold FS.stat
    rw [hres, hi]
    simp only []
    rw [hino]
  · rw [h] at herr
    cases herr
    exact absurd rfl (hstep msg)
  · rw [h] at herr
    cases herr

/-- Instance of C8 as amended: the move of `/opt/akamai/akamai` to
`/usr/local/bin/akamai` with a failing chmod leaves the source as it was. -/
theorem moveFile_error_keeps_source_witness :
    ((∀ i, sampleFS.resolve "/opt/akamai/akamai" = some i →
        sampleFS.resolve "/usr/local/bin/akamai" ≠ some i) ∧
      (moveFile { Faults.none with chmod := some "operation not permitted" } sampleFS
        "/opt/akamai/akamai" "/usr/local/bin/akamai").err
        = some (MoveError.chmod "operation not permitted")) ∧
    ((moveFile { Faults.none with chmod := some "operation not permitted" } sampleFS
        "/opt/akamai/akamai" "/usr/local/bin/akamai").fs.stat "/opt/akamai/akamai"
        = sampleFS.stat "/opt/akamai/akamai" ∧
      (moveFile { Faults.none with chmod := some "operation not permitted" } sampleFS
        "/opt/akamai/akamai" "/usr/local/bin/akamai").fs.resolve "/opt/akamai/akamai"
        = sampleFS.resolve "/opt/akamai/akamai" ∧
      Op.remove ∉ (moveFile { Faults.none with chmod := some "operation not permitted" } sampleFS
        "/opt/akamai/akamai" "/usr/local/bin/akamai").ops) :=
  ⟨⟨fun i _ h => Option.noConfusion h, by decide⟩,
    moveFile_error_keeps_source { Faults.none with chmod := some "operation not permitted" }
      sampleFS "/opt/akamai/akamai" "/usr/local/bin/akamai"
      (MoveError.chmod "operation not permitted") (fun i _ h => Option.noConfusion h) (by decide)
      (fun msg h => by cases h)⟩

/-! ## The path chooser -/

theorem emitItems_eq (i : Nat) (ps : List String) (w : World) :
    emitItems i ps w = { w with trace := w.trace ++ itemEvents i ps } := by
  induction ps generalizing i w with
  | nil => simp [emitItems, itemEvents]
  | cons p ps ih => simp [emitItems, itemEvents, ih, emit]

@[simp] theorem emitItems_trace (i : Nat) (ps : List String) (w : World) :
    (emitItems i ps w).trace = w.trace ++ itemEvents i ps := by rw [emitItems_eq]

@[simp] theorem emitItems_input (i : Nat) (ps : List String) (w : World) :
    (emitItems i ps w).input = w.input := by rw [emitItems_eq]

@[simp] theorem emitItems_cfg (i : Nat) (ps : List String) (w : World) :
    (emitItems i ps w).cfg = w.cfg := by rw [emitItems_eq]

@[simp] theorem scanln_emitItems_fst (i : Nat) (ps : List String) (w : World) :
    (scanln (emitItems i ps w)).1 = (scanln w).1 := by
  unfold scanln; simp only [emitItems_input]; cases w.input <;> rfl

theorem count_itemEvents (e : Event) (he : ∀ i p, e ≠ Event.chooseItem i p) (i : Nat)
    (ps : List String) : (itemEvents i ps).count e = 0 := by
  induction ps generalizing i with
  | nil => simp [itemEvents]
  | cons p ps ih =>
    simp only [itemEvents, List.count_cons, ih, beq_iff_eq]
    simp [(he (i + 1) p).symm]

theorem relocations_itemEvents (i : Nat) (ps : List String) :
    relocations (itemEvents i ps) = [] := by
  induction ps generalizing i with
  | nil => simp [itemEvents, relocations]
  | cons p ps ih =>
    have := ih (i + 1)
    simp only [relocations] at this ⊢
    simp [itemEvents, this]

theorem relocations_append (a b : List Event) :
    relocations (a ++ b) = relocations a ++ relocations b := by
  simp [relocations]

@[simp] theorem relocations_nil : relocations [] = [] := rfl

@[simp] theorem relocations_cons_move (src dst : String) (t : List Event) :
    relocations (Event.moveFile src dst :: t) = (src, dst) :: relocations t := rfl

theorem relocations_cons_other (e : Event) (t : List Event)
    (he : ∀ src dst, e ≠ Event.moveFile src dst) : relocations (e :: t) = relocations t := by
  cases e <;> first | rfl | exact absurd rfl (he _ _)

theorem toolsMoveFile_trace (w : World) (src dst : String) :
    (toolsMoveFile w src dst).2.trace = w.trace ++ [Event.moveFile src dst] := by
  unfold toolsMoveFile; simp only [emit_moves]; cases w.moves <;> rfl

theorem toolsMoveFile_cfg (w : World) (src dst : String) :
    (toolsMoveFile w src dst).2.cfg = w.cfg := by
  unfold toolsMoveFile; simp only [emit_moves]; cases w.moves <;> rfl

theorem atoi_empty : atoi "" = (0, false) := rfl

/-- Events `install` adds once the candidate `d` has been selected: spinner,
one relocation, the update of `os.Args[0]`, the report. -/
theorem install_trace (env : Env) (wp : List String) (k : Int) (selfPath d : String) (w : World)
    (hd : sliceAt wp (k - 1) = some d) :
    (install env wp k selfPath w).1 = Outcome.ret () ∧
    ∃ tl, (install env wp k selfPath w).2.trace
        = w.trace ++ [Event.startSpinner (env.join d ("akamai" ++ if env.windows then ".exe" else "")),
            Event.moveFile selfPath (env.join d ("akamai" ++ if env.windows then ".exe" else "")),
            Event.setArgs0 (env.join d ("akamai" ++ if env.windows then ".exe" else ""))] ++ tl ∧
      (tl = [Event.stopSpinnerOk] ∨ ∃ msg, tl = [Event.stopSpinnerFail, Event.printError msg,
        Event.stopSpinnerOk]) := by
  unfold install
  simp only [hd]
  refine ⟨trivial, ?_⟩
  cases hm : (toolsMoveFile (emit w (Event.startSpinner
      (env.join d ("akamai" ++ if env.windows then ".exe" else "")))) selfPath
      (env.join d ("akamai" ++ if env.windows then ".exe" else ""))).1 with
  | none =>
    refine ⟨[Event.stopSpinnerOk], ?_, Or.inl rfl⟩
    simp [hm, toolsMoveFile_trace]
  | some msg =>
    refine ⟨[Event.stopSpinnerFail, Event.printError msg, Event.stopSpinnerOk], ?_, Or.inr ⟨msg, rfl⟩⟩
    simp [hm, toolsMoveFile_trace]

theorem sliceAt_of_range (wp : List String) (k : Int) (hk1 : 1 ≤ k) (hk2 : k ≤ wp.length) :
    ∃ d, wp.get? (k - 1).toNat = some d ∧ sliceAt wp (k - 1) = some d := by
  have hlt : (k - 1).toNat < wp.length := by omega
  refine ⟨wp.get ⟨(k - 1).toNat, hlt⟩, List.get?_eq_get hlt, ?_⟩
  unfold sliceAt
  rw [if_neg (by omega)]
  exact List.get?_eq_get hlt

/-- What `choosePath` does when the line it reads is a valid selection: no
recursive call, straight to `install`. -/
theorem choosePath_valid_eq (env : Env) (fuel : Nat) (wp : List String) (ans selfPath : String)
    (w : World) (k : Int) (hparse : atoi (scanln w).1 = (k, true)) (hk1 : 1 ≤ k)
    (hk2 : k ≤ wp.length) :
    choosePath env (fuel + 1) wp ans selfPath w
      = install env wp k selfPath
          (scanln (emit (emitItems 0 wp (emit w Event.chooseHeader)) Event.enterNumber)).2 := by
  have hne : (scanln w).1 ≠ "" := by
    intro h
    rw [h, atoi_empty] at hparse
    cases hparse
  have hcond : ¬ ((scanln w).1 = "" ∨ k < 1 ∨ k > (wp.length : Int)) := by
    rintro (h | h | h)
    · exact hne h
    · omega
    · omega
  simp [choosePath, hparse, hcond]

/-- Claim C3: for every list of `N` candidates and every first input line that
parses as an integer `k` with `1 ≤ k ≤ N` (so the list is not empty),
`choosePath` returns normally, prints no "Invalid choice" and its menu once
(no re-prompt), and requests exactly one relocation: of the running
executable to the `k`-th candidate joined with `akamai` (`akamai.exe` on
Windows). -/
theorem choosePath_valid_selection (env : Env) (fuel : Nat) (wp : List String)
    (ans selfPath line : String) (rest : List String) (w : World) (k : Int)
    (hin : w.input = line :: rest) (hparse : atoi line = (k, true)) (hk1 : 1 ≤ k)
    (hk2 : k ≤ wp.length) :
    ∃ d, wp.get? (k - 1).toNat = some d ∧
      (choosePath env (fuel + 1) wp ans selfPath w).1 = Outcome.ret () ∧
      (choosePath env (fuel + 1) wp ans selfPath w).2.trace.count Event.invalidChoice
        = w.trace.count Event.invalidChoice ∧
      (choosePath env (fuel + 1) wp ans selfPath w).2.trace.count Event.chooseHeader
        = w.trace.count Event.chooseHeader + 1 ∧
      relocations (choosePath env (fuel + 1) wp ans selfPath w).2.trace
        = relocations w.trace ++
            [(selfPath, env.join d ("akamai" ++ if env.windows then ".exe" else ""))] := by
  have hs : (scanln w).1 = line := by simp [scanln, hin]
  obtain ⟨d, hd1, hd2⟩ := sliceAt_of_range wp k hk1 hk2
  refine ⟨d, hd1, ?_⟩
  rw [choosePath_valid_eq env fuel wp ans selfPath w k (by rw [hs]; exact hparse) hk1 hk2]
  obtain ⟨hret, tl, htr, htl⟩ := install_trace env wp k selfPath d
    (scanln (emit (emitItems 0 wp (emit w Event.chooseHeader)) Event.enterNumber)).2 hd2
  refine ⟨hret, ?_, ?_, ?_⟩
  · rw [htr]
    rcases htl with rfl | ⟨msg, rfl⟩ <;>
      simp [List.count_append, List.count_cons, count_itemEvents]
  · rw [htr]
    rcases htl with rfl | ⟨msg, rfl⟩ <;>
      simp [List.count_append, List.count_cons, count_itemEvents]
  · rw [htr]
    rcases htl with rfl | ⟨msg, rfl⟩ <;>
      simp [relocations_append, relocations_itemEvents, relocations_cons_other]

/-- Instance of C3: three candidates and the input line `2`. -/
theorem choosePath_valid_selection_witness :
    atoi "2" = (2, true) ∧
    ∃ d, ["/usr/bin", "/usr/local/bin", "/usr/sbin"].get? ((2 : Int) - 1).toNat = some d ∧
      (choosePath (unixEnv "") (0 + 1) ["/usr/bin", "/usr/local/bin", "/usr/sbin"] ""
        "/opt/akamai/akamai" (World.start (cliConfig []) ["2"] [])).1 = Outcome.ret () ∧
      (choosePath (unixEnv "") (0 + 1) ["/usr/bin", "/usr/local/bin", "/usr/sbin"] ""
        "/opt/akamai/akamai" (World.start (cliConfig []) ["2"] [])).2.trace.count
          Event.invalidChoice
        = (World.start (cliConfig []) ["2"] []).trace.count Event.invalidChoice ∧
      (choosePath (unixEnv "") (0 + 1) ["/usr/bin", "/usr/local/bin", "/usr/sbin"] ""
        "/opt/akamai/akamai" (World.start (cliConfig []) ["2"] [])).2.trace.count
          Event.chooseHeader
        = (World.start (cliConfig []) ["2"] []).trace.count Event.chooseHeader + 1 ∧
      relocations (choosePath (unixEnv "") (0 + 1) ["/usr/bin", "/usr/local/bin", "/usr/sbin"] ""
        "/opt/akamai/akamai" (World.start (cliConfig []) ["2"] [])).2.trace
        = relocations (World.start (cliConfig []) ["2"] []).trace ++
            [("/opt/akamai/akamai", (unixEnv "").join d
              ("akamai" ++ if (unixEnv "").windows then ".exe" else ""))] :=
  ⟨by decide,
    choosePath_valid_selection (unixEnv "") 0 ["/usr/bin", "/usr/local/bin", "/usr/sbin"] ""
      "/opt/akamai/akamai" "2" [] (World.start (cliConfig []) ["2"] []) 2 rfl (by decide)
      (by decide) (by decide)⟩

theorem parseSigned_cases (neg : Bool) (cs : List Char) :
    parseSigned neg cs = (0, false) ∨ parseSigned neg cs = (maxInt, false) ∨
      parseSigned neg cs = (-(2 ^ 63), false) ∨ (parseSigned neg cs).2 = true := by
  unfold parseSigned
  split
  · simp
  · split
    · simp
    · split_ifs <;> simp

theorem atoi_cases (s : String) :
    atoi s = (0, false) ∨ atoi s = (maxInt, false) ∨ atoi s = (-(2 ^ 63), false) ∨
      (atoi s).2 = true := by
  unfold atoi
  split
  · simp
  · exact parseSigned_cases _ _
  · exact parseSigned_cases _ _
  · exact parseSigned_cases _ _

theorem atoi_err (s : String) (h : (atoi s).2 = false) :
    (atoi s).1 = 0 ∨ (atoi s).1 = maxInt ∨ (atoi s).1 = -(2 ^ 63) := by
  rcases atoi_cases s with h0 | h0 | h0 | h0
  · exact Or.inl (by rw [h0])
  · exact Or.inr (Or.inl (by rw [h0]))
  · exact Or.inr (Or.inr (by rw [h0]))
  · rw [h0] at h; cases h

theorem sliceAt_out_of_range (wp : List String) (i : Int) (h : i < 1 ∨ i > wp.length) :
    sliceAt wp (i - 1) = none := by
  unfold sliceAt
  split_ifs with h0
  · rfl
  · apply List.get?_eq_none.mpr
    omega

theorem install_out_of_range (env : Env) (wp : List String) (i : Int) (selfPath : String)
    (w : World) (h : i < 1 ∨ i > wp.length) :
    install env wp i selfPath w = (Outcome.panic "index out of range", w) := by
  unfold install
  simp [sliceAt_out_of_range wp i h]

/-- Claim C4, what the code does instead: for every list of fewer than
2^63 - 1 candidates, when the line read first is invalid (not a number, empty,
or an integer outside `[1, N]`), `choosePath` never completes normally,
whatever lines follow and however deep the recursion may go: each of its two
recursive calls is followed by the rest of the caller, which ends in the slice
access `writablePaths[index-1]` with the rejected index. -/
theorem choosePath_invalid_never_returns (env : Env) (fuel : Nat) (wp : List String)
    (ans selfPath : String) (w : World) (hlen : (wp.length : Int) < maxInt)
    (hinv : (atoi (scanln w).1).2 = false ∨ (scanln w).1 = "" ∨ (atoi (scanln w).1).1 < 1 ∨
      (atoi (scanln w).1).1 > wp.length) :
    (choosePath env fuel wp ans selfPath w).1 ≠ Outcome.ret () := by
  have hrange : (atoi (scanln w).1).1 < 1 ∨ (atoi (scanln w).1).1 > wp.length := by
    rcases hinv with h | h | h | h
    · rcases atoi_err _ h with h0 | h0 | h0
      · left; omega
      · right; omega
      · left; rw [h0]; decide
    · left; rw [h, atoi_empty]; decide
    · exact Or.inl h
    · exact Or.inr h
  have hcond : (scanln w).1 = "" ∨ (atoi (scanln w).1).1 < 1 ∨
      (atoi (scanln w).1).1 > (wp.length : Int) := Or.inr hrange
  cases fuel with
  | zero => simp [choosePath]
  | succ n =>
    unfold choosePath
    simp only [scanln_emit_fst, scanln_emitItems_fst, hcond, if_true]
    split
    · split
      · rw [install_out_of_range _ _ _ _ _ hrange]
        simp
      · rename_i o ho
        intro hret
        exact ho () _ (Prod.ext hret rfl)
    · rename_i o ho
      intro hret
      exact ho () _ (Prod.ext hret rfl)

/-- Instance of C4: three candidates, the out-of-range line `0`, then the
valid line `2`.  The inner call relocates to the second candidate and
returns; the outer call then indexes the candidates with -1 and panics. -/
theorem choosePath_invalid_never_returns_witness :
    (atoi (scanln (World.start (cliConfig []) ["0", "2"] [])).1).1 < 1 ∧
    (choosePath (unixEnv "") 50 ["/usr/bin", "/usr/local/bin", "/usr/sbin"] ""
      "/opt/akamai/akamai" (World.start (cliConfig []) ["0", "2"] [])).1 ≠ Outcome.ret () ∧
    (choosePath (unixEnv "") 50 ["/usr/bin", "/usr/local/bin", "/usr/sbin"] ""
      "/opt/akamai/akamai" (World.start (cliConfig []) ["0", "2"] [])).1
        = Outcome.panic "index out of range" ∧
    relocations (choosePath (unixEnv "") 50 ["/usr/bin", "/usr/local/bin", "/usr/sbin"] ""
      "/opt/akamai/akamai" (World.start (cliConfig []) ["0", "2"] [])).2.trace
        = [("/opt/akamai/akamai", "/usr/local/bin/akamai")] :=
  ⟨by decide,
    choosePath_invalid_never_returns (unixEnv "") 50 ["/usr/bin", "/usr/local/bin", "/usr/sbin"]
      "" "/opt/akamai/akamai" (World.start (cliConfig []) ["0", "2"] []) (by decide)
      (Or.inr (Or.inr (Or.inl (by decide)))),
    by decide, by decide⟩

/-! ## Trace extension -/

theorem TraceExt.refl (P : Event → Prop) (w : World) : TraceExt P w w :=
  ⟨[], by simp, by simp⟩

theorem TraceExt.trans {P : Event → Prop} {a b c : World} (h1 : TraceExt P a b)
    (h2 : TraceExt P b c) : TraceExt P a c := by
  obtain ⟨e1, ht1, hp1⟩ := h1
  obtain ⟨e2, ht2, hp2⟩ := h2
  refine ⟨e1 ++ e2, by rw [ht2, ht1, List.append_assoc], ?_⟩
  intro e he
  rcases List.mem_append.mp he with h | h
  · exact hp1 e h
  · exact hp2 e h

theorem TraceExt.of_trace_eq {P : Event → Prop} {a b c : World} (h1 : TraceExt P a b)
    (h2 : c.trace = b.trace) : TraceExt P a c := by
  obtain ⟨e1, ht1, hp1⟩ := h1
  exact ⟨e1, by rw [h2, ht1], hp1⟩

theorem TraceExt.emit {P : Event → Prop} {a b : World} (h1 : TraceExt P a b) (e : Event)
    (he : P e) : TraceExt P a (emit b e) := by
  obtain ⟨e1, ht1, hp1⟩ := h1
  refine ⟨e1 ++ [e], by simp [ht1], ?_⟩
  intro x hx
  rcases List.mem_append.mp hx with h | h
  · exact hp1 x h
  · rw [List.mem_singleton.mp h]; exact he

theorem TraceExt.count_eq {P : Event → Prop} {a b : World} (h : TraceExt P a b) (e : Event)
    (he : ¬ P e) : b.trace.count e = a.trace.count e := by
  obtain ⟨e1, ht1, hp1⟩ := h
  rw [ht1, List.count_append, List.count_eq_zero_of_not_mem (fun hm => he (hp1 e hm))]
  rfl

theorem TraceExt.mem_iff {P : Event → Prop} {a b : World} (h : TraceExt P a b) (e : Event)
    (he : ¬ P e) : e ∈ b.trace ↔ e ∈ a.trace := by
  obtain ⟨e1, ht1, hp1⟩ := h
  rw [ht1, List.mem_append]
  exact ⟨fun hm => hm.elim id (fun hm2 => absurd (hp1 e hm2) he), Or.inl⟩

theorem TraceExt.mem_of_mem {P : Event → Prop} {a b : World} (h : TraceExt P a b) (e : Event)
    (he : e ∈ a.trace) : e ∈ b.trace := by
  obtain ⟨e1, ht1, _⟩ := h
  rw [ht1]; exact List.mem_append_left _ he

theorem firstRunCheckUpgrade_ext (b : Bool) (w : World) :
    TraceExt upgradeEvent w (firstRunCheckUpgrade b w).2 := by
  refine ⟨upgradeEvents b w, firstRunCheckUpgrade_trace b w, ?_⟩
  intro e he
  unfold upgradeEvents at he
  unfold upgradeEvent
  split_ifs at he <;> simp at he <;> tauto

theorem itemEvents_chooser (wp : List String) (ps : List String) (hsub : ∀ p ∈ ps, p ∈ wp)
    (i : Nat) : ∀ e ∈ itemEvents i ps, chooserEvent wp e := by
  induction ps generalizing i with
  | nil => simp [itemEvents]
  | cons p ps ih =>
    intro e he
    simp only [itemEvents, List.mem_cons] at he
    rcases he with rfl | he
    · exact hsub p (List.mem_cons_self _ _)
    · exact ih (fun q hq => hsub q (List.mem_cons_of_mem _ hq)) (i + 1) e he

theorem install_ext (env : Env) (wp : List String) (k : Int) (selfPath : String) (w : World) :
    TraceExt (chooserEvent wp) w (install env wp k selfPath w).2 ∧
      (install env wp k selfPath w).2.cfg = w.cfg := by
  cases hd : sliceAt wp (k - 1) with
  | none =>
    unfold install
    simp only [hd]
    exact ⟨TraceExt.refl _ _, trivial⟩
  | some d =>
    obtain ⟨_, tl, htr, htl⟩ := install_trace env wp k selfPath d w hd
    constructor
    · refine ⟨_, by rw [htr, List.append_assoc], ?_⟩
      intro e he
      rcases htl with rfl | ⟨msg, rfl⟩ <;> simp at he <;>
        rcases he with rfl | rfl | rfl | rfl | rfl | rfl <;> trivial
    · unfold install
      simp only [hd]
      cases (toolsMoveFile (emit w (Event.startSpinner
        (env.join d ("akamai" ++ if env.windows then ".exe" else "")))) selfPath
        (env.join d ("akamai" ++ if env.windows then ".exe" else ""))).1 <;>
        simp [toolsMoveFile_cfg]

theorem choosePath_ext (env : Env) (wp : List String) (selfPath : String) :
    ∀ (fuel : Nat) (ans : String) (w : World),
      TraceExt (chooserEvent wp) w (choosePath env fuel wp ans selfPath w).2 ∧
        (choosePath env fuel wp ans selfPath w).2.cfg = w.cfg := by
  intro fuel
  induction fuel with
  | zero => intro ans w; exact ⟨TraceExt.refl _ _, rfl⟩
  | succ n ih =>
    intro ans w
    have h3 : TraceExt (chooserEvent wp) w
        (scanln (emit (emitItems 0 wp (emit w Event.chooseHeader)) Event.enterNumber)).2 := by
      refine TraceExt.of_trace_eq ?_ (scanln_trace _)
      refine TraceExt.emit ?_ _ trivial
      refine TraceExt.trans (TraceExt.emit (TraceExt.refl _ w) Event.chooseHeader trivial) ?_
      exact ⟨_, emitItems_trace _ _ _, itemEvents_chooser wp wp (fun _ h => h) 0⟩
    have c3 : (scanln (emit (emitItems 0 wp (emit w Event.chooseHeader))
        Event.enterNumber)).2.cfg = w.cfg := by simp
    have hrec : ∀ (a : String) (v : World), TraceExt (chooserEvent wp) w v → v.cfg = w.cfg →
        TraceExt (chooserEvent wp) w (choosePath env n wp a selfPath (emit v Event.invalidChoice)).2 ∧
          (choosePath env n wp a selfPath (emit v Event.invalidChoice)).2.cfg = w.cfg := by
      intro a v hv hc
      have := ih a (emit v Event.invalidChoice)
      exact ⟨(hv.emit Event.invalidChoice trivial).trans this.1, by rw [this.2]; exact hc⟩
    have hs1 : ∀ (c : Prop) (inst : Decidable c) (a : String) (v : World),
        TraceExt (chooserEvent wp) w v → v.cfg = w.cfg →
        TraceExt (chooserEvent wp) w
          (@ite _ c inst (choosePath env n wp a selfPath (emit v Event.invalidChoice))
            (Outcome.ret (), v)).2 ∧
        (@ite _ c inst (choosePath env n wp a selfPath (emit v Event.invalidChoice))
            (Outcome.ret (), v)).2.cfg = w.cfg := by
      intro c _ a v hv hc
      split_ifs
      · exact hrec a v hv hc
      · exact ⟨hv, hc⟩
    unfold choosePath
    simp only []
    split
    · rename_i u w4 heq
      have h4 : TraceExt (chooserEvent wp) w (Outcome.ret u, w4).2 ∧
          (Outcome.ret u, w4).2.cfg = w.cfg := by
        rw [← heq]; exact hs1 _ _ _ _ h3 c3
      split
      · rename_i u2 w5 heq2
        have h5 : TraceExt (chooserEvent wp) w (Outcome.ret u2, w5).2 ∧
            (Outcome.ret u2, w5).2.cfg = w.cfg := by
          rw [← heq2]; exact hs1 _ _ _ _ h4.1 h4.2
        have h6 := install_ext env wp (atoi (scanln (emit (emitItems 0 wp
          (emit w Event.chooseHeader)) Event.enterNumber)).1).1 selfPath w5
        exact ⟨h5.1.trans h6.1, by rw [h6.2]; exact h5.2⟩
      · exact hs1 _ _ _ _ h4.1 h4.2
    · exact hs1 _ _ _ _ h3 c3

/-! ## The scan of the PATH entries -/

theorem firstRunCheckUpgrade_inv (b : Bool) (w : World) (h : BannerInv w) :
    BannerInv (firstRunCheckUpgrade b w).2 := by
  by_cases hl : getConfigValue w "cli" "last-upgrade-check" = ""
  · have h0 : w.trace.count Event.showBanner = 0 := by
      rcases Nat.lt_or_ge (w.trace.count Event.showBanner) 1 with h1 | h1
      · omega
      · exact absurd hl (h.2 (Nat.le_antisymm h.1 h1))
    refine ⟨?_, fun _ => firstRunCheckUpgrade_set b w⟩
    rw [firstRunCheckUpgrade_trace, List.count_append, h0]
    unfold upgradeEvents
    split_ifs <;> simp [List.count_cons]
  · rw [firstRunCheckUpgrade_of_set b w hl]; exact h

theorem scanEntry_cases (env : Env) (d : String) (st : Scan) (p : String) :
    (trimSpace p = "" ∧ scanEntry env d st p = st) ∨
    (trimSpace p ≠ "" ∧ normEntry env p = d ∧
      scanEntry env d st p =
        { inPath := true, bannerShown := (firstRunCheckUpgrade false st.w).1,
          writablePaths :=
            if probeWritable env (normEntry env p) then st.writablePaths ++ [normEntry env p]
            else st.writablePaths,
          w := (firstRunCheckUpgrade false st.w).2 }) ∨
    (trimSpace p ≠ "" ∧ normEntry env p ≠ d ∧
      scanEntry env d st p =
        { st with writablePaths :=
            if probeWritable env (normEntry env p) then st.writablePaths ++ [normEntry env p]
            else st.writablePaths }) := by
  have hw : (if env.statNotExist (normEntry env p) = false then
        if env.checkAccess (normEntry env p) = true then st.writablePaths ++ [normEntry env p]
        else st.writablePaths
      else st.writablePaths)
      = if probeWritable env (normEntry env p) then st.writablePaths ++ [normEntry env p]
        else st.writablePaths := by
    unfold probeWritable
    by_cases h1 : env.statNotExist (normEntry env p) = false <;>
      by_cases h2 : env.checkAccess (normEntry env p) = true <;> simp [h1, h2]
  by_cases hb : trimSpace p = ""
  · left; exact ⟨hb, by simp [scanEntry, hb]⟩
  · by_cases hm : normEntry env p = d
    · right; left
      refine ⟨hb, hm, ?_⟩
      unfold scanEntry
      rw [if_neg hb]
      simp only []
      rw [show (if env.windows = true then env.toLower p else p) = normEntry env p from rfl,
        if_pos hm, hw]
    · right; right
      refine ⟨hb, hm, ?_⟩
      unfold scanEntry
      rw [if_neg hb]
      simp only []
      rw [show (if env.windows = true then env.toLower p else p) = normEntry env p from rfl,
        if_neg hm, hw]

/-- What one iteration of the loop over the PATH entries establishes. -/
theorem scanEntry_step (env : Env) (d : String) (st : Scan) (p : String) :
    ((scanEntry env d st p).inPath = true ↔
      st.inPath = true ∨ (trimSpace p ≠ "" ∧ normEntry env p = d)) ∧
    (∀ q, q ∈ (scanEntry env d st p).writablePaths ↔
      q ∈ st.writablePaths ∨
        (trimSpace p ≠ "" ∧ probeWritable env (normEntry env p) ∧ q = normEntry env p)) ∧
    ((scanEntry env d st p).inPath = false →
      (scanEntry env d st p).w = st.w ∧ (scanEntry env d st p).bannerShown = st.bannerShown) ∧
    TraceExt upgradeEvent st.w (scanEntry env d st p).w ∧
    (BannerInv st.w → BannerInv (scanEntry env d st p).w) := by
  have hwp : ∀ q, q ∈ (if probeWritable env (normEntry env p) then
        st.writablePaths ++ [normEntry env p] else st.writablePaths) ↔
      q ∈ st.writablePaths ∨ (probeWritable env (normEntry env p) ∧ q = normEntry env p) := by
    intro q
    split_ifs with hp <;> simp [hp]
  have hcases := scanEntry_cases env d st p
  generalize scanEntry env d st p = st2 at hcases ⊢
  rcases hcases with ⟨hb, he⟩ | ⟨hb, hm, he⟩ | ⟨hb, hm, he⟩
  · subst he
    exact ⟨by simp [hb], fun q => by simp [hb], fun _ => ⟨rfl, rfl⟩, TraceExt.refl _ _, id⟩
  · have e1 : st2.inPath = true := by rw [he]
    have e2 : st2.w = (firstRunCheckUpgrade false st.w).2 := by rw [he]
    have e3 : ∀ q, q ∈ st2.writablePaths ↔
        q ∈ st.writablePaths ∨ (probeWritable env (normEntry env p) ∧ q = normEntry env p) := by
      intro q; rw [he]; exact hwp q
    refine ⟨⟨fun _ => Or.inr ⟨hb, hm⟩, fun _ => e1⟩, fun q => (e3 q).trans ?_, ?_, ?_, ?_⟩
    · exact ⟨fun h => h.imp_right (fun h2 => ⟨hb, h2⟩), fun h => h.imp_right (fun h2 => h2.2)⟩
    · intro hf
      rw [e1] at hf
      cases hf
    · rw [e2]
      exact firstRunCheckUpgrade_ext false st.w
    · intro hinv
      rw [e2]
      exact firstRunCheckUpgrade_inv false st.w hinv
  · have e1 : st2.inPath = st.inPath := by rw [he]
    have e2 : st2.w = st.w := by rw [he]
    have e3 : ∀ q, q ∈ st2.writablePaths ↔
        q ∈ st.writablePaths ∨ (probeWritable env (normEntry env p) ∧ q = normEntry env p) := by
      intro q; rw [he]; exact hwp q
    have e4 : st2.bannerShown = st.bannerShown := by rw [he]
    refine ⟨?_, fun q => (e3 q).trans ?_, fun _ => ⟨e2, e4⟩, ?_, ?_⟩
    · rw [e1]
      exact ⟨Or.inl, fun h => h.elim id (fun h2 => absurd h2.2 hm)⟩
    · exact ⟨fun h => h.imp_right (fun h2 => ⟨hb, h2⟩), fun h => h.imp_right (fun h2 => h2.2)⟩
    · rw [e2]; exact TraceExt.refl _ _
    · rw [e2]; exact id

/-- What the loop over the PATH entries establishes, from any loop state. -/
theorem scan_foldl (env : Env) (d : String) (paths : List String) :
    ∀ st : Scan,
      ((paths.foldl (scanEntry env d) st).inPath = true ↔
        st.inPath = true ∨ ∃ p ∈ paths, trimSpace p ≠ "" ∧ normEntry env p = d) ∧
      (∀ q, q ∈ (paths.foldl (scanEntry env d) st).writablePaths ↔
        q ∈ st.writablePaths ∨
          ∃ p ∈ paths, trimSpace p ≠ "" ∧ probeWritable env (normEntry env p) ∧
            q = normEntry env p) ∧
      ((paths.foldl (scanEntry env d) st).inPath = false →
        (paths.foldl (scanEntry env d) st).w = st.w ∧
          (paths.foldl (scanEntry env d) st).bannerShown = st.bannerShown) ∧
      TraceExt upgradeEvent st.w (paths.foldl (scanEntry env d) st).w ∧
      (BannerInv st.w → BannerInv (paths.foldl (scanEntry env d) st).w) := by
  induction paths with
  | nil =>
    intro st
    simp only [List.foldl_nil]
    exact ⟨by simp, fun q => by simp, fun _ => by simp, TraceExt.refl _ _, id⟩
  | cons p ps ih =>
    intro st
    simp only [List.foldl_cons, List.mem_cons, exists_eq_or_imp]
    obtain ⟨s1, s2, s3, s4, s5⟩ := scanEntry_step env d st p
    generalize scanEntry env d st p = st2 at s1 s2 s3 s4 s5 ⊢
    obtain ⟨i1, i2, i3, i4, i5⟩ := ih st2
    generalize List.foldl (scanEntry env d) st2 ps = st3 at i1 i2 i3 i4 i5 ⊢
    refine ⟨?_, ?_, ?_, s4.trans i4, fun h => i5 (s5 h)⟩
    · rw [i1, s1, or_assoc]
    · intro q
      rw [i2 q, s2 q, or_assoc]
    · intro hf
      obtain ⟨h1, h2⟩ := i3 hf
      have h3 : st2.inPath = false := by
        cases hst : st2.inPath with
        | false => rfl
        | true => rw [i1.mpr (Or.inl hst)] at hf; cases hf
      obtain ⟨h4, h5⟩ := s3 h3
      exact ⟨h1.trans h4, h2.trans h5⟩

theorem scanInit_spec (paths : List String) (w : World) :
    ((scanInit paths w).inPath = true ↔
      getConfigValue w "cli" "install-in-path" = "no" ∨ paths = []) ∧
    (scanInit paths w).writablePaths = [] ∧
    ((scanInit paths w).inPath = false →
      (scanInit paths w).w = w ∧ (scanInit paths w).bannerShown = false) ∧
    TraceExt upgradeEvent w (scanInit paths w).w ∧
    (BannerInv w → BannerInv (scanInit paths w).w) := by
  have hlen : paths.length = 0 ↔ paths = [] := List.length_eq_zero
  unfold scanInit
  simp only [hlen]
  by_cases h1 : getConfigValue w "cli" "install-in-path" = "no" <;>
    by_cases h2 : paths = []
  · simp only [h1, h2, if_true]
    refine ⟨by simp, trivial, by simp, ?_, ?_⟩
    · exact (firstRunCheckUpgrade_ext _ w).trans (firstRunCheckUpgrade_ext _ _)
    · exact fun h => firstRunCheckUpgrade_inv _ _ (firstRunCheckUpgrade_inv _ _ h)
  · simp only [h1, h2, if_true, if_false]
    refine ⟨by simp, trivial, by simp, ?_, ?_⟩
    · exact firstRunCheckUpgrade_ext _ w
    · exact fun h => firstRunCheckUpgrade_inv _ _ h
  · simp only [h1, h2, if_true, if_false]
    refine ⟨by simp, trivial, by simp, ?_, ?_⟩
    · exact firstRunCheckUpgrade_ext _ w
    · exact fun h => firstRunCheckUpgrade_inv _ _ h
  · simp only [h1, h2, if_false]
    exact ⟨by simp, trivial, by simp, TraceExt.refl _ _, id⟩

theorem scanResult_spec (env : Env) (selfPath : String) (w : World) :
    (((scanResult env selfPath w).inPath = false ∧
        (scanResult env selfPath w).writablePaths.length > 0) ↔ promptDue env selfPath w) ∧
    (∀ q, q ∈ (scanResult env selfPath w).writablePaths ↔
      ∃ p ∈ splitList env.windows env.sysPath, trimSpace p ≠ "" ∧
        probeWritable env (normEntry env p) ∧ q = normEntry env p) ∧
    ((scanResult env selfPath w).inPath = false →
      (scanResult env selfPath w).w = emit w (Event.setArgs0 selfPath) ∧
        (scanResult env selfPath w).bannerShown = false) ∧
    TraceExt upgradeEvent (emit w (Event.setArgs0 selfPath)) (scanResult env selfPath w).w ∧
    (BannerInv (emit w (Event.setArgs0 selfPath)) → BannerInv (scanResult env selfPath w).w) := by
  obtain ⟨a1, a2, a3, a4, a5⟩ :=
    scanInit_spec (splitList env.windows env.sysPath) (emit w (Event.setArgs0 selfPath))
  obtain ⟨b1, b2, b3, b4, b5⟩ := scan_foldl env (exeDir env selfPath)
    (splitList env.windows env.sysPath)
    (scanInit (splitList env.windows env.sysPath) (emit w (Event.setArgs0 selfPath)))
  unfold scanResult
  generalize scanInit (splitList env.windows env.sysPath) (emit w (Event.setArgs0 selfPath))
    = st0 at a1 a2 a3 a4 a5 b1 b2 b3 b4 b5 ⊢
  generalize List.foldl (scanEntry env (exeDir env selfPath)) st0
    (splitList env.windows env.sysPath) = st at b1 b2 b3 b4 b5 ⊢
  have hmem : ∀ q, q ∈ st.writablePaths ↔
      ∃ p ∈ splitList env.windows env.sysPath, trimSpace p ≠ "" ∧
        probeWritable env (normEntry env p) ∧ q = normEntry env p := by
    intro q
    rw [b2 q, a2]
    simp
  have hin0 : st.inPath = false → st0.inPath = false := by
    intro hf
    cases h0 : st0.inPath with
    | false => rfl
    | true => rw [b1.mpr (Or.inl h0)] at hf; cases hf
  refine ⟨?_, hmem, ?_, a4.trans b4, fun h => b5 (a5 h)⟩
  · unfold promptDue onPath hasWritable getConfigValue
    constructor
    · rintro ⟨hf, hl⟩
      have hne : st.writablePaths ≠ [] := fun h => by rw [h] at hl; simp at hl
      obtain ⟨q, hq⟩ := List.exists_mem_of_ne_nil _ hne
      obtain ⟨p, hp, hb, hw, _⟩ := (hmem q).mp hq
      refine ⟨?_, ?_, ⟨p, hp, hb, hw⟩⟩
      · intro hno
        have := a1.mpr (Or.inl hno)
        rw [hin0 hf] at this
        cases this
      · intro hon
        rw [b1.mpr (Or.inr hon)] at hf
        cases hf
    · rintro ⟨hno, hon, ⟨p, hp, hb, hw⟩⟩
      constructor
      · cases hst : st.inPath with
        | false => rfl
        | true =>
          rcases b1.mp hst with h0 | h0
          · rcases a1.mp h0 with h | h
            · exact absurd h hno
            · rw [h] at hp; cases hp
          · exact absurd h0 hon
      · exact List.length_pos_of_mem ((hmem (normEntry env p)).mpr ⟨p, hp, hb, hw, rfl⟩)
  · intro hf
    obtain ⟨h1, h2⟩ := b3 hf
    obtain ⟨h3, h4⟩ := a3 (hin0 hf)
    exact ⟨h1.trans h3, h2.trans h4⟩

/-! ## The installation decision -/

/-- Without the three conditions `firstRunCheckInPath` returns after its
loop: no installation prompt, no chooser. -/
theorem firstRunCheckInPath_quiet (env : Env) (fuel : Nat) (w : World) (selfPath : String)
    (hexe : env.executable = Except.ok selfPath) (hno : ¬ promptDue env selfPath w) :
    firstRunCheckInPath env fuel w
      = (Outcome.ret ((scanResult env selfPath w).bannerShown, none),
          (scanResult env selfPath w).w) := by
  have hc := (scanResult_spec env selfPath w).1
  have hn : ¬ ((scanResult env selfPath w).inPath = false ∧
      (scanResult env selfPath w).writablePaths.length > 0) := fun h => hno (hc.mp h)
  unfold firstRunCheckInPath
  rw [hexe]
  simp only []
  rw [show List.foldl (scanEntry env (if env.windows = true then env.toLower (env.dir selfPath)
      else env.dir selfPath)) (scanInit (splitList env.windows env.sysPath)
      (emit w (Event.setArgs0 selfPath))) (splitList env.windows env.sysPath)
      = scanResult env selfPath w from rfl]
  rw [if_neg hn]

/-- The world right after the installation prompt has been printed. -/
theorem firstRunCheckInPath_prompt (env : Env) (fuel : Nat) (w : World) (selfPath : String)
    (hexe : env.executable = Except.ok selfPath) (hdue : promptDue env selfPath w) :
    (saysY (scanln (emit (emit (emit w (Event.setArgs0 selfPath)) Event.showBanner)
        Event.installPrompt)).1 →
      firstRunCheckInPath env fuel w
        = (Outcome.ret (true, none),
            (firstRunCheckUpgrade true (saveConfig (setConfigValue
              (scanln (emit (emit (emit w (Event.setArgs0 selfPath)) Event.showBanner)
                Event.installPrompt)).2 "cli" "install-in-path" "no"))).2)) ∧
    (¬ saysY (scanln (emit (emit (emit w (Event.setArgs0 selfPath)) Event.showBanner)
        Event.installPrompt)).1 →
      (firstRunCheckInPath env fuel w).2
        = (choosePath env fuel (scanResult env selfPath w).writablePaths
            (scanln (emit (emit (emit w (Event.setArgs0 selfPath)) Event.showBanner)
              Event.installPrompt)).1 selfPath
            (scanln (emit (emit (emit w (Event.setArgs0 selfPath)) Event.showBanner)
              Event.installPrompt)).2).2 ∧
      ∀ b e, (firstRunCheckInPath env fuel w).1 = Outcome.ret (b, e) → b = true ∧ e = none) := by
  obtain ⟨hc, _, hw, _, _⟩ := scanResult_spec env selfPath w
  have hy := hc.mpr hdue
  obtain ⟨hw1, hw2⟩ := hw hy.1
  unfold firstRunCheckInPath
  rw [hexe]
  simp only []
  rw [show List.foldl (scanEntry env (if env.windows = true then env.toLower (env.dir selfPath)
      else env.dir selfPath)) (scanInit (splitList env.windows env.sysPath)
      (emit w (Event.setArgs0 selfPath))) (splitList env.windows env.sysPath)
      = scanResult env selfPath w from rfl]
  rw [if_pos hy]
  generalize scanResult env selfPath w = st at hw1 hw2 ⊢
  rw [hw1, hw2]
  simp only [if_true]
  constructor
  · intro hs
    unfold saysY at hs
    rw [if_pos hs]
  · intro hs
    unfold saysY at hs
    rw [if_neg hs]
    generalize choosePath env fuel st.writablePaths _ selfPath _ = r
    rcases r with ⟨o, w3⟩
    cases o with
    | ret u => exact ⟨rfl, fun b e h => by cases h; exact ⟨rfl, rfl⟩⟩
    | panic msg => exact ⟨rfl, fun b e h => by cases h⟩
    | diverge => exact ⟨rfl, fun b e h => by cases h⟩

theorem not_upgradeEvent_installPrompt : ¬ upgradeEvent Event.installPrompt := by
  unfold upgradeEvent; simp

theorem not_upgradeEvent_chooseHeader : ¬ upgradeEvent Event.chooseHeader := by
  unfold upgradeEvent; simp

/-- From any world whose trace holds neither the installation prompt nor a
chooser menu: the prompt is printed exactly under the three conditions, and a
chooser menu only after the prompt. -/
theorem installPrompt_mem_iff (env : Env) (fuel : Nat) (w : World) (selfPath : String)
    (hexe : env.executable = Except.ok selfPath) (h1 : Event.installPrompt ∉ w.trace)
    (h2 : Event.chooseHeader ∉ w.trace) :
    (Event.installPrompt ∈ (firstRunCheckInPath env fuel w).2.trace ↔ promptDue env selfPath w) ∧
    (Event.chooseHeader ∈ (firstRunCheckInPath env fuel w).2.trace →
      Event.installPrompt ∈ (firstRunCheckInPath env fuel w).2.trace) := by
  by_cases hdue : promptDue env selfPath w
  · have hin : Event.installPrompt ∈ (firstRunCheckInPath env fuel w).2.trace := by
      obtain ⟨hy, hn⟩ := firstRunCheckInPath_prompt env fuel w selfPath hexe hdue
      have hbase : Event.installPrompt ∈ (scanln (emit (emit (emit w (Event.setArgs0 selfPath))
          Event.showBanner) Event.installPrompt)).2.trace := by simp
      by_cases hs : saysY (scanln (emit (emit (emit w (Event.setArgs0 selfPath))
          Event.showBanner) Event.installPrompt)).1
      · rw [hy hs]
        apply (firstRunCheckUpgrade_ext true _).mem_of_mem
        simp
      · rw [(hn hs).1]
        exact (choosePath_ext env _ selfPath fuel _ _).1.mem_of_mem _ hbase
    exact ⟨⟨fun _ => hdue, fun _ => hin⟩, fun _ => hin⟩
  · rw [firstRunCheckInPath_quiet env fuel w selfPath hexe hdue]
    have hext := (scanResult_spec env selfPath w).2.2.2.1
    have hp : Event.installPrompt ∉ (scanResult env selfPath w).w.trace := by
      rw [hext.mem_iff _ not_upgradeEvent_installPrompt]
      simpa using h1
    have hc : Event.chooseHeader ∉ (scanResult env selfPath w).w.trace := by
      rw [hext.mem_iff _ not_upgradeEvent_chooseHeader]
      simpa using h2
    exact ⟨⟨fun h => absurd h hp, fun h => absurd h hdue⟩, fun h => absurd h hc⟩

/-- Claim C1: for every environment in which the executable resolves, every
PATH value, every file-system answer to the probes and every store,
`firstRunCheckInPath` prints the installation prompt if and only if the
declined sentinel is not `no`, no non-blank PATH entry (lower-cased on
Windows) equals the directory of the executable (lower-cased on Windows) and
some non-blank PATH entry passes the write-access probe (`os.Stat` does not
report it missing and `checkAccess` succeeds).  A chooser menu appears only
after the prompt; an empty PATH or one without a writable entry gives neither;
a permutation of the entries does not change whether the prompt appears; and
on a file system where `checkAccess` never succeeds on a missing path the
probe is the `checkAccess` call alone. -/
theorem installPrompt_iff (env : Env) (selfPath : String) (fuel : Nat)
    (cfg : String → String → String) (input : List String) (moves : List (Option String))
    (hexe : env.executable = Except.ok selfPath) :
    (Event.installPrompt ∈ (firstRunCheckInPath env fuel (World.start cfg input moves)).2.trace ↔
      cfg "cli" "install-in-path" ≠ "no" ∧
      (¬ ∃ p ∈ splitList env.windows env.sysPath,
          trimSpace p ≠ "" ∧ normEntry env p = exeDir env selfPath) ∧
      (∃ p ∈ splitList env.windows env.sysPath,
          trimSpace p ≠ "" ∧ probeWritable env (normEntry env p))) ∧
    (Event.chooseHeader ∈ (firstRunCheckInPath env fuel (World.start cfg input moves)).2.trace →
      Event.installPrompt ∈ (firstRunCheckInPath env fuel (World.start cfg input moves)).2.trace) ∧
    ((splitList env.windows env.sysPath = [] ∨
        ¬ ∃ p ∈ splitList env.windows env.sysPath,
          trimSpace p ≠ "" ∧ probeWritable env (normEntry env p)) →
      Event.installPrompt ∉ (firstRunCheckInPath env fuel (World.start cfg input moves)).2.trace ∧
      Event.chooseHeader ∉ (firstRunCheckInPath env fuel (World.start cfg input moves)).2.trace) ∧
    (∀ sysPath2, (splitList env.windows sysPath2).Perm (splitList env.windows env.sysPath) →
      (Event.installPrompt ∈
          (firstRunCheckInPath { env with sysPath := sysPath2 } fuel
            (World.start cfg input moves)).2.trace ↔
        Event.installPrompt ∈
          (firstRunCheckInPath env fuel (World.start cfg input moves)).2.trace)) ∧
    ((∀ p, env.checkAccess p = true → env.statNotExist p = false) →
      (Event.installPrompt ∈
          (firstRunCheckInPath env fuel (World.start cfg input moves)).2.trace ↔
        cfg "cli" "install-in-path" ≠ "no" ∧
        (¬ ∃ p ∈ splitList env.windows env.sysPath,
            trimSpace p ≠ "" ∧ normEntry env p = exeDir env selfPath) ∧
        (∃ p ∈ splitList env.windows env.sysPath,
            trimSpace p ≠ "" ∧ env.checkAccess (normEntry env p) = true))) := by
  have hstart1 : Event.installPrompt ∉ (World.start cfg input moves).trace := by
    simp [World.start]
  have hstart2 : Event.chooseHeader ∉ (World.start cfg input moves).trace := by
    simp [World.start]
  obtain ⟨hiff, hch⟩ :=
    installPrompt_mem_iff env fuel (World.start cfg input moves) selfPath hexe hstart1 hstart2
  have hiff2 : Event.installPrompt ∈
      (firstRunCheckInPath env fuel (World.start cfg input moves)).2.trace ↔
      cfg "cli" "install-in-path" ≠ "no" ∧
      (¬ ∃ p ∈ splitList env.windows env.sysPath,
          trimSpace p ≠ "" ∧ normEntry env p = exeDir env selfPath) ∧
      (∃ p ∈ splitList env.windows env.sysPath,
          trimSpace p ≠ "" ∧ probeWritable env (normEntry env p)) := hiff
  refine ⟨hiff2, hch, ?_, ?_, ?_⟩
  · intro hnone
    have hno : Event.installPrompt ∉
        (firstRunCheckInPath env fuel (World.start cfg input moves)).2.trace := by
      intro hin
      obtain ⟨_, _, p, hp, hb, hw⟩ := hiff2.mp hin
      rcases hnone with h | h
      · rw [h] at hp; cases hp
      · exact h ⟨p, hp, hb, hw⟩
    exact ⟨hno, fun h => hno (hch h)⟩
  · intro sysPath2 hperm
    have hexe2 : ({ env with sysPath := sysPath2 } : Env).executable = Except.ok selfPath := hexe
    obtain ⟨hiffb, _⟩ := installPrompt_mem_iff { env with sysPath := sysPath2 } fuel
      (World.start cfg input moves) selfPath hexe2 hstart1 hstart2
    rw [hiffb, hiff]
    unfold promptDue onPath hasWritable
    have hm : ∀ p, p ∈ splitList ({ env with sysPath := sysPath2 } : Env).windows
        ({ env with sysPath := sysPath2 } : Env).sysPath ↔
        p ∈ splitList env.windows env.sysPath := fun p => hperm.mem_iff
    have hn : ∀ p, normEntry { env with sysPath := sysPath2 } p = normEntry env p := fun _ => rfl
    have hd : exeDir { env with sysPath := sysPath2 } selfPath = exeDir env selfPath := rfl
    have hpw : ∀ p, probeWritable { env with sysPath := sysPath2 } p ↔ probeWritable env p :=
      fun _ => Iff.rfl
    simp only [hm, hn, hd, hpw]
  · intro hfs
    rw [hiff2]
    have : ∀ p, probeWritable env p ↔ env.checkAccess p = true :=
      fun p => ⟨fun h => h.2, fun h => ⟨hfs p h, h⟩⟩
    simp only [this]

/-- Instance of C1: the executable is `/opt/akamai/akamai`, the PATH is
`/usr/local/bin` (writable) and the store is empty, so the prompt is printed. -/
theorem installPrompt_iff_witness :
    (unixEnv "/usr/local/bin").executable = Except.ok "/opt/akamai/akamai" ∧
    Event.installPrompt ∈
      (firstRunCheckInPath (unixEnv "/usr/local/bin") 5
        (World.start (cliConfig []) ["n", "1"] [])).2.trace :=
  ⟨rfl,
    (installPrompt_iff (unixEnv "/usr/local/bin") "/opt/akamai/akamai" 5 (cliConfig [])
      ["n", "1"] [] rfl).1.mpr ⟨by decide, by decide, by decide⟩⟩

/-! ## The banner -/

theorem not_chooserEvent_showBanner (wp : List String) : ¬ chooserEvent wp Event.showBanner :=
  fun h => h

theorem firstRunCheckUpgrade_true_count (w : World) :
    (firstRunCheckUpgrade true w).2.trace.count Event.showBanner
      = w.trace.count Event.showBanner := by
  rw [firstRunCheckUpgrade_trace, List.count_append]
  unfold upgradeEvents
  by_cases h : getConfigValue w "cli" "last-upgrade-check" = "" <;> simp [h, List.count_cons]

/-- After `firstRunCheckInPath`, from a trace without a banner: at most one
banner, and a returned flag that is either true or comes with the invariant
that keeps `firstRunCheckUpgrade` from rendering a second one. -/
theorem firstRunCheckInPath_banner (env : Env) (fuel : Nat) (w : World)
    (h0 : w.trace.count Event.showBanner = 0) :
    (firstRunCheckInPath env fuel w).2.trace.count Event.showBanner ≤ 1 ∧
    ∀ b, (firstRunCheckInPath env fuel w).1 = Outcome.ret (b, none) →
      b = true ∨ BannerInv (firstRunCheckInPath env fuel w).2 := by
  cases hexe : env.executable with
  | error e =>
    have : firstRunCheckInPath env fuel w = (Outcome.ret (false, some e), w) := by
      unfold firstRunCheckInPath; rw [hexe]
    rw [this]
    exact ⟨by simp [h0], fun b h => by cases h⟩
  | ok selfPath =>
    have hw1 : (scanln (emit (emit (emit w (Event.setArgs0 selfPath)) Event.showBanner)
        Event.installPrompt)).2.trace.count Event.showBanner = 1 := by
      simp [List.count_append, List.count_cons, h0]
    by_cases hdue : promptDue env selfPath w
    · obtain ⟨hy, hn⟩ := firstRunCheckInPath_prompt env fuel w selfPath hexe hdue
      by_cases hs : saysY (scanln (emit (emit (emit w (Event.setArgs0 selfPath))
          Event.showBanner) Event.installPrompt)).1
      · rw [hy hs]
        refine ⟨?_, fun b h => Or.inl (by cases h; rfl)⟩
        rw [firstRunCheckUpgrade_true_count]
        simp only [saveConfig_trace, setConfigValue_trace, List.count_append, hw1]
        simp [List.count_cons]
      · obtain ⟨h1, h2⟩ := hn hs
        refine ⟨?_, fun b h => Or.inl (h2 b none h).1⟩
        rw [h1, (choosePath_ext env _ selfPath fuel _ _).1.count_eq _
          (not_chooserEvent_showBanner _), hw1]
    · rw [firstRunCheckInPath_quiet env fuel w selfPath hexe hdue]
      have hinv0 : BannerInv (emit w (Event.setArgs0 selfPath)) := by
        have hc : (emit w (Event.setArgs0 selfPath)).trace.count Event.showBanner = 0 := by
          simp [List.count_append, List.count_cons, h0]
        exact ⟨by omega, fun h => by omega⟩
      have hinv := (scanResult_spec env selfPath w).2.2.2.2 hinv0
      exact ⟨hinv.1, fun b _ => Or.inr hinv⟩

/-- Claim C2: in every run of `firstRun` (any environment, any PATH, any
store contents, any answers, any recursion depth of the chooser), with a
store whose `get` returns the value last `set`, the trace holds at most one
`ShowBanner`, counting the renders of `firstRunCheckInPath`, of every nested
`firstRunCheckUpgrade` and of the final `firstRunCheckUpgrade`. -/
theorem firstRun_banner_at_most_once (env : Env) (fuel : Nat) (cfg : String → String → String)
    (input : List String) (moves : List (Option String)) :
    (firstRun env fuel (World.start cfg input moves)).2.trace.count Event.showBanner ≤ 1 := by
  have h0 : (World.start cfg input moves).trace.count Event.showBanner = 0 := by
    simp [World.start]
  obtain ⟨hle, hflag⟩ := firstRunCheckInPath_banner env fuel (World.start cfg input moves) h0
  unfold firstRun
  split_ifs with htty
  · simp [World.start]
  · generalize firstRunCheckInPath env fuel (World.start cfg input moves) = r at hle hflag ⊢
    rcases r with ⟨o, w1⟩
    cases o with
    | panic msg => exact hle
    | diverge => exact hle
    | ret v =>
      rcases v with ⟨b, e⟩
      cases e with
      | some e => exact hle
      | none =>
        simp only [emit_trace, List.count_append]
        have : (firstRunCheckUpgrade b w1).2.trace.count Event.showBanner ≤ 1 := by
          rcases hflag b rfl with hb | hinv
          · rw [hb, firstRunCheckUpgrade_true_count]; exact hle
          · exact (firstRunCheckUpgrade_inv b w1 hinv).1
        simpa [List.count_cons] using this

/-! ## Entries are compared untrimmed -/

theorem TraceExt.mem_cases {P : Event → Prop} {a b : World} (h : TraceExt P a b) (e : Event)
    (he : e ∈ b.trace) : e ∈ a.trace ∨ P e := by
  obtain ⟨e1, ht1, hp1⟩ := h
  rw [ht1, List.mem_append] at he
  exact he.imp_right (hp1 e)

theorem mem_listedCandidates (q : String) (t : List Event) :
    q ∈ listedCandidates t ↔ ∃ i, Event.chooseItem i q ∈ t := by
  unfold listedCandidates
  rw [List.mem_filterMap]
  constructor
  · rintro ⟨e, he, hq⟩
    cases e <;> simp at hq
    rename_i i p
    subst hq
    exact ⟨i, he⟩
  · rintro ⟨i, hi⟩
    exact ⟨_, hi, rfl⟩

/-- Counterexample to C9: the PATH entry `/opt/akamai ` (with a trailing
blank) trims to the directory of the executable, yet the executable is not
treated as on the path and the installation prompt is printed. -/
theorem trimmed_entry_not_matched :
    (∃ p ∈ splitList (unixEnv "/opt/akamai :/usr/local/bin").windows
        (unixEnv "/opt/akamai :/usr/local/bin").sysPath,
      trimSpace p = exeDir (unixEnv "/opt/akamai :/usr/local/bin") "/opt/akamai/akamai") ∧
    Event.installPrompt ∈
      (firstRunCheckInPath (unixEnv "/opt/akamai :/usr/local/bin") 5
        (World.start (cliConfig []) ["n", "1"] [])).2.trace := by
  decide

/-- Claim C9, amended: PATH entries are not trimmed.  Entries that are blank
after trimming are skipped and every other entry is used verbatim (lower-cased
on Windows): whenever some non-blank entry, so taken, equals the directory of
the executable, no installation prompt is printed; and every candidate
directory listed by the path chooser is a non-blank entry taken verbatim
(lower-cased on Windows). -/
theorem entries_used_verbatim (env : Env) (selfPath : String) (fuel : Nat)
    (cfg : String → String → String) (input : List String) (moves : List (Option String))
    (hexe : env.executable = Except.ok selfPath) :
    ((∃ p ∈ splitList env.windows env.sysPath,
        trimSpace p ≠ "" ∧ normEntry env p = exeDir env selfPath) →
      Event.installPrompt ∉
        (firstRunCheckInPath env fuel (World.start cfg input moves)).2.trace) ∧
    (∀ q ∈ listedCandidates (firstRunCheckInPath env fuel (World.start cfg input moves)).2.trace,
      ∃ p ∈ splitList env.windows env.sysPath, trimSpace p ≠ "" ∧ q = normEntry env p) := by
  have hstart1 : Event.installPrompt ∉ (World.start cfg input moves).trace := by
    simp [World.start]
  have hstart2 : Event.chooseHeader ∉ (World.start cfg input moves).trace := by
    simp [World.start]
  obtain ⟨hiff, _⟩ :=
    installPrompt_mem_iff env fuel (World.start cfg input moves) selfPath hexe hstart1 hstart2
  refine ⟨fun hon hin => (hiff.mp hin).2.1 hon, ?_⟩
  intro q hq
  obtain ⟨i, hi⟩ := (mem_listedCandidates q _).mp hq
  by_cases hdue : promptDue env selfPath (World.start cfg input moves)
  · obtain ⟨hy, hn⟩ := firstRunCheckInPath_prompt env fuel _ selfPath hexe hdue
    have hw1 : Event.chooseItem i q ∉ (scanln (emit (emit (emit (World.start cfg input moves)
        (Event.setArgs0 selfPath)) Event.showBanner) Event.installPrompt)).2.trace := by
      simp [World.start]
    by_cases hs : saysY (scanln (emit (emit (emit (World.start cfg input moves)
        (Event.setArgs0 selfPath)) Event.showBanner) Event.installPrompt)).1
    · rw [hy hs] at hi
      rcases (firstRunCheckUpgrade_ext true _).mem_cases _ hi with h | h
      · simp [World.start] at h
      · unfold upgradeEvent at h; simp at h
    · rw [(hn hs).1] at hi
      rcases (choosePath_ext env _ selfPath fuel _ _).1.mem_cases _ hi with h | h
      · exact absurd h hw1
      · obtain ⟨p, hp, hb, _, hqp⟩ := ((scanResult_spec env selfPath _).2.1 q).mp h
        exact ⟨p, hp, hb, hqp⟩
  · rw [firstRunCheckInPath_quiet env fuel _ selfPath hexe hdue] at hi
    rcases (scanResult_spec env selfPath _).2.2.2.1.mem_cases _ hi with h | h
    · simp [World.start] at h
    · unfold upgradeEvent at h; simp at h

/-- Instance of C9 as amended: with the PATH `/opt/akamai:/usr/local/bin` the
first entry is the directory of the executable, so no prompt is printed. -/
theorem entries_used_verbatim_witness :
    (unixEnv "/opt/akamai:/usr/local/bin").executable = Except.ok "/opt/akamai/akamai" ∧
    Event.installPrompt ∉
      (firstRunCheckInPath (unixEnv "/opt/akamai:/usr/local/bin") 5
        (World.start (cliConfig []) ["n", "1"] [])).2.trace :=
  ⟨rfl,
    (entries_used_verbatim (unixEnv "/opt/akamai:/usr/local/bin") "/opt/akamai/akamai" 5
      (cliConfig []) ["n", "1"] [] rfl).1 (by decide)⟩

/-! ## The answer to the installation prompt -/

theorem choosePath_header_mem (env : Env) (wp : List String) (selfPath : String) (n : Nat)
    (ans : String) (w : World) :
    Event.chooseHeader ∈ (choosePath env (n + 1) wp ans selfPath w).2.trace := by
  have h3 : Event.chooseHeader ∈
      (scanln (emit (emitItems 0 wp (emit w Event.chooseHeader)) Event.enterNumber)).2.trace := by
    simp
  have hs1 : ∀ (c : Prop) (inst : Decidable c) (a : String) (v : World),
      Event.chooseHeader ∈ v.trace →
      Event.chooseHeader ∈
        (@ite _ c inst (choosePath env n wp a selfPath (emit v Event.invalidChoice))
          (Outcome.ret (), v)).2.trace := by
    intro c _ a v hv
    split_ifs
    · exact (choosePath_ext env wp selfPath n a _).1.mem_of_mem _ (by simp [hv])
    · exact hv
  unfold choosePath
  simp only []
  split
  · rename_i u w4 heq
    have h4 : Event.chooseHeader ∈ (Outcome.ret u, w4).2.trace := by
      rw [← heq]; exact hs1 _ _ _ _ h3
    split
    · rename_i u2 w5 heq2
      have h5 : Event.chooseHeader ∈ (Outcome.ret u2, w5).2.trace := by
        rw [← heq2]; exact hs1 _ _ _ _ h4
      exact (install_ext env wp _ selfPath w5).1.mem_of_mem _ h5
    · exact hs1 _ _ _ _ h4
  · exact hs1 _ _ _ _ h3

theorem relocations_upgradeEvents (b : Bool) (w : World) : relocations (upgradeEvents b w) = [] := by
  unfold upgradeEvents
  by_cases h : getConfigValue w "cli" "last-upgrade-check" = "" <;> cases b <;>
    simp [h, relocations_cons_other]

/-- Claim C5, what the code does instead: whenever the installation prompt is
due, an answer equal to `y` or `Y` makes `firstRunCheckInPath` record the
declined sentinel `cli.install-in-path = "no"`, never reach the path chooser
and request no relocation; every other answer (also the empty line and `n`)
leads to the path chooser. -/
theorem install_answer_inverted (env : Env) (selfPath : String) (fuel : Nat)
    (cfg : String → String → String) (input : List String) (moves : List (Option String))
    (hexe : env.executable = Except.ok selfPath)
    (hdue : promptDue env selfPath (World.start cfg input moves)) :
    (saysY (scanln (World.start cfg input moves)).1 →
      (firstRunCheckInPath env fuel (World.start cfg input moves)).2.cfg "cli" "install-in-path"
        = "no" ∧
      Event.chooseHeader ∉ (firstRunCheckInPath env fuel (World.start cfg input moves)).2.trace ∧
      relocations (firstRunCheckInPath env fuel (World.start cfg input moves)).2.trace = []) ∧
    (¬ saysY (scanln (World.start cfg input moves)).1 →
      Event.chooseHeader ∈
        (firstRunCheckInPath env (fuel + 1) (World.start cfg input moves)).2.trace) := by
  have hans : (scanln (emit (emit (emit (World.start cfg input moves) (Event.setArgs0 selfPath))
      Event.showBanner) Event.installPrompt)).1 = (scanln (World.start cfg input moves)).1 := by
    simp
  constructor
  · intro hs
    obtain ⟨hy, _⟩ := firstRunCheckInPath_prompt env fuel _ selfPath hexe hdue
    rw [hy (by rw [hans]; exact hs)]
    refine ⟨?_, ?_, ?_⟩
    · rw [firstRunCheckUpgrade_cfg_other _ _ _ _ (by decide)]
      simp
    · intro hin
      rcases (firstRunCheckUpgrade_ext true _).mem_cases _ hin with h | h
      · simp [World.start] at h
      · unfold upgradeEvent at h; simp at h
    · rw [firstRunCheckUpgrade_trace, relocations_append, relocations_upgradeEvents]
      simp [World.start, relocations_append, relocations_cons_other]
  · intro hs
    obtain ⟨_, hn⟩ := firstRunCheckInPath_prompt env (fuel + 1) _ selfPath hexe hdue
    rw [(hn (by rw [hans]; exact hs)).1]
    exact choosePath_header_mem env _ selfPath fuel _ _

/-- Instance of C5 at the failing input: PATH `/usr/local/bin` (writable),
empty store, answer `y`.  The declined sentinel is recorded and nothing is
relocated. -/
theorem install_answer_inverted_witness :
    ((unixEnv "/usr/local/bin").executable = Except.ok "/opt/akamai/akamai" ∧
      saysY (scanln (World.start (cliConfig []) ["y"] [])).1) ∧
    ((firstRunCheckInPath (unixEnv "/usr/local/bin") 5
        (World.start (cliConfig []) ["y"] [])).2.cfg "cli" "install-in-path" = "no" ∧
      Event.chooseHeader ∉ (firstRunCheckInPath (unixEnv "/usr/local/bin") 5
        (World.start (cliConfig []) ["y"] [])).2.trace ∧
      relocations (firstRunCheckInPath (unixEnv "/usr/local/bin") 5
        (World.start (cliConfig []) ["y"] [])).2.trace = []) :=
  ⟨⟨rfl, by decide⟩,
    (install_answer_inverted (unixEnv "/usr/local/bin") "/opt/akamai/akamai" 5 (cliConfig [])
      ["y"] [] rfl ⟨by decide, by decide, by decide⟩).1 (by decide)⟩

/-! ## The banner flag -/

/-- Claim C10 at the failing input: the declined sentinel is `no`, the
upgrade opt-in is unset and the PATH is the directory of the executable.  The
sentinel guard renders the banner and sets the flag; the loop then calls
`firstRunCheckUpgrade(false)` on the matching entry and overwrites the flag
with false.  `firstRunCheckInPath` returns false and `firstRun` passes false
to `stats.FirstRunCheckStats` although the banner was rendered. -/
theorem bannerShown_flag_reset :
    (firstRunCheckInPath (unixEnv "/opt/akamai") 5
      (World.start (cliConfig [("install-in-path", "no")]) ["n"] [])).1
        = Outcome.ret (false, none) ∧
    Event.showBanner ∈ (firstRunCheckInPath (unixEnv "/opt/akamai") 5
      (World.start (cliConfig [("install-in-path", "no")]) ["n"] [])).2.trace ∧
    (firstRun (unixEnv "/opt/akamai") 5
      (World.start (cliConfig [("install-in-path", "no")]) ["n"] [])).2.trace
        = [Event.setArgs0 "/opt/akamai/akamai", Event.showBanner, Event.upgradePrompt,
            Event.saveConfig, Event.stats false] := by
  decide

end FirstRun
